import Mathlib

/-!
Verification development for the `warc` package: a shallow embedding of its
HTTP-capture transport, record builder and rotating WARC file writer,
together with theorems settling the specification claims.

Bytes are modelled as `List Nat`; Go maps with `Set` semantics are modelled
as association lists where `set` replaces an existing binding in place.
-/

namespace Warc

/-- WARC/HTTP header field set.  Modelled from the spec: the header container
is out of scope of the core sources ("an ordered, case-preserving
multi-valued string-keyed field set"); the embedding keeps an association
list, and `set` replaces the binding of an existing key in place (the `Set`
semantics used by all code in the sources).  All accesses in the modelled
code use one consistent spelling per key, so case-insensitive lookup is
embedded as exact-match lookup. -/
abbrev Header := List (String × String)

def Header.set (h : Header) (k v : String) : Header :=
  if h.any (fun p => p.1 = k) then
    h.map (fun p => if p.1 = k then (k, v) else p)
  else
    h ++ [(k, v)]

def Header.get (h : Header) (k : String) : Option String :=
  (h.find? (fun p => p.1 = k)).map (fun p => p.2)

def Header.empty : Header := []

/-- `warc.Record`: a header plus a once-readable content stream, embedded as
the byte list the stream yields. -/
structure Record where
  header : Header
  content : List Nat
deriving DecidableEq

/-- `warc.NewRecord`.  Modelled from the spec: a fresh record with an empty
header and no content (the constructor lives outside the given sources). -/
def NewRecord : Record := { header := Header.empty, content := [] }

/-- `warc.RecordBatch`: an ordered sequence of records plus the single
capture timestamp shared by the batch. -/
structure RecordBatch where
  captureTime : String
  records : List Record
deriving DecidableEq

/-- `warc.NewRecordBatch`.  Modelled from the spec: a fresh batch whose
`CaptureTime` is the current time (passed here as the `now` argument) and
whose record list is empty. -/
def NewRecordBatch (now : String) : RecordBatch :=
  { captureTime := now, records := [] }

/-- `GetSHA1`.  Modelled from the spec: the payload digest is an unspecified
pure function `digest(bytes) -> string`; it is embedded as an injective
encoding of the bytes, which preserves exactly the property the spec
assumes (determinism on the raw bytes). -/
def GetSHA1 (b : List Nat) : String := toString b

/- ## headersFromRawData (record builder, raw-bytes entry point) -/

/-- The 4-byte CRLF-CRLF delimiter 0x0d 0x0a 0x0d 0x0a. -/
def crlfcrlf : List Nat := [13, 10, 13, 10]

/-- Go slice `data[i:i+4]`. -/
def slice4 (data : List Nat) (i : Nat) : List Nat :=
  (data.drop i).take 4

/-- The scanning loop of `headersFromRawData` (part_000 lines 73-87):
iterate `i` over the indices of `data` (the `iterRest` argument counts the
remaining iterations of `for i := range data`); if fewer than 4 bytes
remain the source panics (`none` here); on the first index where
`data[i:i+4]` equals the delimiter, `pos = i + 4` is returned.  A loop
that never sets `pos` (only possible for empty `data`) leaves `pos = 0`,
which the source also turns into a panic; `findDelim` returns `none`
there as well. -/
def findDelimLoop (data : List Nat) : Nat → List Nat → Option Nat
  | _, [] => none
  | i, _ :: iterRest =>
    if data.length < i + 4 then none
    else if slice4 data i = crlfcrlf then some (i + 4)
    else findDelimLoop data (i + 1) iterRest

def findDelim (data : List Nat) : Option Nat :=
  findDelimLoop data 0 data

/-- Split a byte list into CRLF-separated lines.  Modelled from the
documented behaviour of `textproto.Reader` (standard library, outside the
sources): each line runs up to and excluding the next 0x0d 0x0a pair. -/
def splitCRLF : List Nat → List (List Nat)
  | [] => []
  | 13 :: 10 :: rest => [] :: splitCRLF rest
  | b :: rest =>
    match splitCRLF rest with
    | [] => [[b]]
    | l :: ls => (b :: l) :: ls

/-- Byte list to string, for header field names and values. -/
def bytesToString (b : List Nat) : String :=
  String.mk (b.map Char.ofNat)

/-- Parse one `field: value` line.  Modelled from the documented behaviour
of `textproto.ReadMIMEHeader`: split at the first colon (0x3a), strip
leading spaces (0x20) from the value; a non-empty line without a colon is a
parse error (the source panics on it).  Key canonicalization is omitted:
the keys the claims mention are written by the modelled code itself, not
parsed. -/
def parseFieldLine (line : List Nat) : Option (String × String) :=
  match line.splitOn 58 with
  | [] => none
  | [_] => none
  | k :: rest =>
    some (bytesToString k,
          bytesToString ((List.intercalate [58] rest).dropWhile (fun b => b = 32)))

/-- Parse the `field: value` lines of a header block until the empty line
that precedes the body, accumulating them into the record's header with
`Set` (part_000 lines 95-102; repeated keys end up joined, which never
happens for the keys the claims mention). -/
def parseMIMELines (h : Header) : List (List Nat) → Option Header
  | [] => some h
  | [] :: _ => some h
  | line :: rest => do
    let (k, v) ← parseFieldLine line
    parseMIMELines (h.set k v) rest

/-- part_000 lines 89-102: split the header block into CRLF lines, discard
the first (`reader.ReadLine` — the status or request line), and merge the
remaining `field: value` lines into the record's header. -/
def parseHeaderBlock (r : Record) (block : List Nat) : Option Record :=
  match splitCRLF block with
  | [] => none
  | _firstLine :: rest =>
    (parseMIMELines r.header rest).bind (fun h => some { r with header := h })

/-- `headersFromRawData` (part_000 lines 70-103): find the CRLF-CRLF
delimiter (panic — `none` — if absent), take `data[:pos]` as the header
block and parse it.  `none` models every panic path of the source. -/
def headersFromRawData (r : Record) (data : List Nat) : Option Record :=
  (findDelim data).bind (fun pos => parseHeaderBlock r (data.take pos))

/-- Spec-level characterization of delimiter presence: some index `i` with
at least 4 bytes left carries the pattern. -/
def hasDelim (data : List Nat) : Bool :=
  (List.range data.length).any (fun i => slice4 data i = crlfcrlf)

/- ## Record builder entry points -/

/-- The parts of `http.Request` the modelled code reads: `req.URL.String()`,
`req.URL.Host` and `req.Body` (nil body modelled as `none`). -/
structure HTTPRequest where
  urlString : String
  urlHost : String
  body : Option (List Nat)

/-- The parts of `http.Response` the modelled code reads.  `responseDump`
and `requestDump` carry the results of `httputil.DumpResponse` and
`httputil.DumpRequestOut` for the alternate entry point (standard-library
collaborators outside the sources, which may fail — `none`). -/
structure HTTPResponse where
  request : HTTPRequest
  body : Option (List Nat)
  responseDump : Option (List Nat)
  requestDump : Option (List Nat)

/-- `recorder.rawResponseCallback` (part_000 lines 122-158): build a fresh
batch, fill a response record from the raw response bytes and a request
record from the raw request bytes, and append them in that order.  `none`
models the panic raised when `headersFromRawData` finds no delimiter.  The
batch is returned rather than sent on the rotator channel; `now` stands for
the batch's `CaptureTime`. -/
def rawResponseCallback (req : HTTPRequest) (resp : HTTPResponse)
    (reqData respData : List Nat) (now : String) : Option RecordBatch :=
  let batch := NewRecordBatch now
  match headersFromRawData NewRecord respData with
  | none => none
  | some responseRecord =>
    let responseRecord :=
      { responseRecord with header :=
          ((((responseRecord.header.set "WARC-Type" "response").set
              "WARC-Payload-Digest" ("sha1:" ++ GetSHA1 respData)).set
              "WARC-Target-URI" req.urlString).set
              "Content-Type" "application/http; msgtype=response") }
    let respBody := (resp.body).getD []
    let responseRecord := { responseRecord with content := respBody }
    match headersFromRawData NewRecord reqData with
    | none => none
    | some requestRecord =>
      let requestRecord :=
        { requestRecord with header :=
            (((((requestRecord.header.set "WARC-Type" "request").set
                "WARC-Payload-Digest" ("sha1:" ++ GetSHA1 reqData)).set
                "WARC-Target-URI" req.urlString).set
                "Host" req.urlHost).set
                "Content-Type" "application/http; msgtype=request") }
      let reqBody := (req.body).getD []
      let requestRecord := { requestRecord with content := reqBody }
      some { batch with records := batch.records ++ [responseRecord, requestRecord] }

/-- `RecordsFromHTTPResponse` (part_000 lines 162-200): dump the response
and the originating request to canonical wire form and build the two-record
batch; a dump failure returns the batch built so far (still empty, since
records are appended only at the end) together with the error. -/
def RecordsFromHTTPResponse (response : HTTPResponse) (now : String) :
    RecordBatch × Option String :=
  let batch := NewRecordBatch now
  match response.responseDump with
  | none => (batch, some "DumpResponse failed")
  | some responseDump =>
    let responseRecord :=
      { NewRecord with
          header :=
            ((((NewRecord.header.set "WARC-Type" "response").set
                "WARC-Payload-Digest" ("sha1:" ++ GetSHA1 responseDump)).set
                "WARC-Target-URI" response.request.urlString).set
                "Content-Type" "application/http; msgtype=response"),
          content := responseDump }
    match response.requestDump with
    | none => (batch, some "DumpRequestOut failed")
    | some requestDump =>
      let requestRecord :=
        { NewRecord with
            header :=
              (((((NewRecord.header.set "WARC-Type" "request").set
                  "WARC-Payload-Digest" ("sha1:" ++ GetSHA1 requestDump)).set
                  "WARC-Target-URI" response.request.urlString).set
                  "Host" response.request.urlHost).set
                  "Content-Type" "application/http; msgtype=request"),
            content := requestDump }
      ({ batch with records := batch.records ++ [responseRecord, requestRecord] },
       none)

/- ## Rotator (recordWriter consumer task) -/

/-- `RotatorSettings` (part_000 lines 22-37).  `warcSize` is the rotation
threshold in the same abstract size unit as record content lengths. -/
structure RotatorSettings where
  warcinfoContent : Header
  filePrefix : String
  compression : String
  warcSize : Nat
  outputDirectory : String

/-- `generateWarcFileName`.  Modelled from the spec (§6): the file name is
`<Prefix>-<Timestamp>-<Serial>-<Host>.warc[.gz].open`; timestamp and host
are constant placeholders here, the serial and the `.open` open-marker are
what the claims depend on. -/
def generateWarcFileName (filePrefix compression : String) (serial : Nat) : String :=
  filePrefix ++ "-TS-" ++ toString serial ++ "-HOST.warc" ++
    (if compression = "GZIP" then ".gz"
     else if compression = "ZSTD" then ".zst" else "") ++ ".open"

/-- Go `strings.TrimSuffix`: drop the suffix when present, else return the
string unchanged (expressed over the character list so that it evaluates
by kernel reduction). -/
def trimSuffix (s suf : String) : String :=
  if suf.data.isSuffixOf s.data then
    String.mk (s.data.take (s.data.length - suf.data.length))
  else s

/-- Fresh record identifier generation inside `Writer.WriteInfoRecord`.
Modelled from the spec: each info record gets a fresh identifier; the
embedding threads a counter and derives identifiers injectively from it. -/
def uuid (n : Nat) : String := "uuid-" ++ toString n

/-- A record as written to a file: its stamped header, its content length,
whether it is the file's info record, and (ghost, for the theorems) the
`CaptureTime` of the batch it came from. -/
structure WrittenRec where
  header : Header
  contentLen : Nat
  isInfo : Bool
  batchTime : String
deriving DecidableEq

/-- One WARC file of the rotation sequence.  `recs` lists the non-info
records written to it, in order.  `frames` lists the compression frames
already closed (each the list of records written inside it) and `openFrame`
the records written to the currently open compression stream (`none` when
no stream is open); both are tracked only when compression is enabled. -/
structure WFile where
  name : String
  serial : Nat
  infoId : String
  recs : List WrittenRec
  frames : List (List WrittenRec)
  openFrame : Option (List WrittenRec)
  renamed : Bool
  closed : Bool
deriving DecidableEq

/-- The I/O actions `recordWriter` performs, in program order. -/
inductive Ev where
  | create (path : String)
  | newWriter (path : String)
  | writeInfo (path id : String)
  | writeRecord (path : String)
  | closeCompression (path : String)
  | flushFile (path : String)
  | closeFile (path : String)
  | rename (oldPath newPath : String)
deriving DecidableEq

/-- `recordWriter`'s mutable state: the local variables of part_000 lines
241-243 plus the fresh-identifier counter, the files already sealed, the
file currently being written and the trace of I/O actions so far. -/
structure RWState where
  serial : Nat
  currentFileName : String
  currentWarcinfoRecordID : String
  nextId : Nat
  sealedFiles : List WFile
  current : WFile
  events : List Ev
deriving DecidableEq

/-- Whether the configured compression algorithm opens a compression
stream: the source closes streams under `Compression == "GZIP"` or
`Compression == "ZSTD"` (validated settings carry no other non-empty
value). -/
def compEnabled (c : String) : Bool :=
  c = "GZIP" || c = "ZSTD"

/-- `NewWriter` over the same file handle: when compression is enabled it
wraps the file in a fresh compression stream (a new frame begins); without
compression it only re-wraps the plain writer. -/
def newWriterF (compression : String) (f : WFile) : WFile :=
  if compEnabled compression then { f with openFrame := some [] } else f

/-- `gzipWriter.Close` / `zstdWriter.Close`: an open stream is terminated
and its contents become a closed frame (a fresh stream that never wrote
emits an empty frame, mirroring an immediately-closed gzip member); closing
when no stream is open is a no-op, mirroring the second `Close` on an
already-closed stream. -/
def closeCompressionF (f : WFile) : WFile :=
  match f.openFrame with
  | some l => { f with frames := f.frames ++ [l], openFrame := none }
  | none => f

/-- `Writer.WriteRecord`.  Modelled from the spec: the encoder appends the
record's bytes to the current output stream; the embedding records it in
the file's record list and, when a compression stream is open, in its
frame. -/
def writeRecF (f : WFile) (r : WrittenRec) : WFile :=
  { f with recs := f.recs ++ [r],
           openFrame := f.openFrame.map (fun l => l ++ [r]) }

/-- `Writer.WriteInfoRecord`.  Modelled from the spec: writes an info
record built from the configured info content as the next record of the
stream and returns its fresh identifier (threaded via `id`). -/
def writeInfoF (f : WFile) (id : String) (infoContent : Header) : WFile :=
  let r : WrittenRec :=
    { header := infoContent.set "WARC-Type" "warcinfo",
      contentLen := 0, isInfo := true, batchTime := "" }
  { f with infoId := id,
           openFrame := f.openFrame.map (fun l => l ++ [r]) }

/-- The on-disk size used by the rotation check.  Modelled from the spec:
`isFileSizeExceeded` compares the current file's on-disk size with the
configured threshold; the size is embedded as the total content length of
the records written (the batch-end flush puts every earlier batch on disk
before the next check; info-record and header bytes are abstracted away). -/
def fileSize (f : WFile) : Nat :=
  (f.recs.map (fun r => r.contentLen)).sum

def isFileSizeExceeded (f : WFile) (warcSize : Nat) : Bool :=
  fileSize f > warcSize

/-- A freshly created, empty WARC file (`os.Create`). -/
def freshFile (name : String) (serial : Nat) : WFile :=
  { name := name, serial := serial, infoId := "", recs := [],
    frames := [], openFrame := none, renamed := false, closed := false }

/-- part_000 lines 241-278: open the initial file, write its info record
(assigning its identifier to `currentWarcinfoRecordID`), and when
compression is enabled close that first frame and reopen a fresh stream. -/
def initState (s : RotatorSettings) : RWState :=
  let serial := 1
  let name := generateWarcFileName s.filePrefix s.compression serial
  let f := freshFile name serial
  let f := newWriterF s.compression f
  let id := uuid 0
  let f := writeInfoF f id s.warcinfoContent
  let evs := [Ev.create (s.outputDirectory ++ name), Ev.newWriter name,
              Ev.writeInfo name id]
  let f := if compEnabled s.compression then newWriterF s.compression (closeCompressionF f) else f
  let evs := evs ++ (if compEnabled s.compression then
    [Ev.closeCompression name, Ev.newWriter name] else [])
  { serial := serial, currentFileName := name, currentWarcinfoRecordID := id,
    nextId := 1, sealedFiles := [], current := f, events := evs }

/-- The current file as sealed by the rotation (part_000 lines 284-298):
renamed to strip the open-marker, compression stream closed, file closed. -/
def sealCurrent (s : RotatorSettings) (st : RWState) : WFile :=
  let cur := { st.current with name := trimSuffix st.currentFileName ".open",
                               renamed := true }
  let cur := if compEnabled s.compression then closeCompressionF cur else cur
  { cur with closed := true }

/-- The next file as opened by the rotation (part_000 lines 300-328): fresh
file under the next serial, fresh writer, info record with a fresh
identifier, first compression frame closed. -/
def rotNewFile (s : RotatorSettings) (st : RWState) : WFile :=
  let nf := freshFile (generateWarcFileName s.filePrefix s.compression (st.serial + 1))
    (st.serial + 1)
  let nf := newWriterF s.compression nf
  let nf := writeInfoF nf (uuid st.nextId) s.warcinfoContent
  if compEnabled s.compression then closeCompressionF nf else nf

/-- part_000 lines 281-329, the size-triggered rotation: rename the current
file to strip the open-marker (the source renames FIRST), then flush, close
the compression stream, close the file; open the next serial and write its
info record.  The identifier returned for the new info record is bound at
line 315 with `:=`, which shadows the outer `currentWarcinfoRecordID`; the
state's `currentWarcinfoRecordID` therefore stays what it was (the new
identifier is discarded at line 319), exactly as in the source. -/
def rotateStep (s : RotatorSettings) (st : RWState) : RWState :=
  let oldPath := s.outputDirectory ++ st.currentFileName
  let published := trimSuffix oldPath ".open"
  let evs := [Ev.rename oldPath published, Ev.flushFile st.currentFileName] ++
    (if compEnabled s.compression then [Ev.closeCompression st.currentFileName] else []) ++
    [Ev.closeFile st.currentFileName]
  let name := generateWarcFileName s.filePrefix s.compression (st.serial + 1)
  let evs := evs ++ [Ev.create (s.outputDirectory ++ name), Ev.newWriter name,
                     Ev.writeInfo name (uuid st.nextId)] ++
    (if compEnabled s.compression then [Ev.closeCompression name] else [])
  { st with serial := st.serial + 1, currentFileName := name,
            nextId := st.nextId + 1,
            sealedFiles := st.sealedFiles ++ [sealCurrent s st],
            current := rotNewFile s st,
            events := st.events ++ evs }

/-- part_000 lines 332-354, one record of a batch: re-open a fresh writer,
stamp `WARC-Date` with the batch's capture time and `WARC-Warcinfo-ID` with
the (never-rotated) `currentWarcinfoRecordID`, write the record, and close
its compression frame. -/
def writeOneRecord (s : RotatorSettings) (captureTime : String)
    (st : RWState) (r : Record) : RWState :=
  let cur := newWriterF s.compression st.current
  let hdr := (r.header.set "WARC-Date" captureTime).set
    "WARC-Warcinfo-ID" ("<urn:uuid:" ++ st.currentWarcinfoRecordID ++ ">")
  let wr : WrittenRec := { header := hdr, contentLen := r.content.length,
                           isInfo := false, batchTime := captureTime }
  let cur := writeRecF cur wr
  let cur := if compEnabled s.compression then closeCompressionF cur else cur
  { st with current := cur,
            events := st.events ++
              [Ev.newWriter st.currentFileName, Ev.writeRecord st.currentFileName] ++
              (if compEnabled s.compression then [Ev.closeCompression st.currentFileName] else []) }

/-- part_000 lines 280-356, the body of the consumer loop for one incoming
batch: rotate first when the current file's size already exceeds the
threshold, then write all the batch's records, then flush. -/
def processBatch (s : RotatorSettings) (st : RWState) (b : RecordBatch) : RWState :=
  let st := if isFileSizeExceeded st.current s.warcSize then rotateStep s st else st
  let st := b.records.foldl (writeOneRecord s b.captureTime) st
  { st with events := st.events ++ [Ev.flushFile st.currentFileName] }

/-- The last file as sealed at shutdown (part_000 lines 360-374):
compression stream closed, file closed, then renamed to strip the
open-marker. -/
def finalSeal (s : RotatorSettings) (st : RWState) : WFile :=
  let cur := if compEnabled s.compression then closeCompressionF st.current else st.current
  let cur := { cur with closed := true }
  { cur with name := trimSuffix st.currentFileName ".open", renamed := true }

/-- part_000 lines 358-374, shutdown after the channel closes: flush, close
the compression stream, close the file, and rename it to strip the
open-marker (here the rename comes last). -/
def shutdownRW (s : RotatorSettings) (st : RWState) : RWState :=
  let oldPath := s.outputDirectory ++ st.currentFileName
  let published := trimSuffix oldPath ".open"
  { st with current := finalSeal s st,
            sealedFiles := st.sealedFiles ++ [finalSeal s st],
            events := st.events ++ [Ev.flushFile st.currentFileName] ++
              (if compEnabled s.compression then [Ev.closeCompression st.currentFileName] else []) ++
              [Ev.closeFile st.currentFileName, Ev.rename oldPath published] }

/-- `recordWriter` (part_000 lines 238-375) run on the whole sequence of
batches received before the channel closes; the resulting `sealedFiles`
are the files of the rotation sequence in creation order. -/
def recordWriter (s : RotatorSettings) (batches : List RecordBatch) : RWState :=
  shutdownRW s (batches.foldl (processBatch s) (initState s))

/- ## Capturing transport: dials and the shared connWrapper -/

/-- The connection-level actions of the capturing transport, in order:
an underlying dial returning connection `connId`, the TLS handshake on it,
and the attachment of the shared connWrapper to it. -/
inductive DialEv where
  | dialed (connId : Nat)
  | handshake (connId : Nat)
  | attach (connId : Nat)
deriving DecidableEq

def DialEv.isAttach : DialEv → Bool
  | DialEv.attach _ => true
  | _ => false

/-- The operations a client can put the transport through: a plain dial, a
TLS dial, and a `Close` of the wrapped connection. -/
inductive DialOp where
  | plain
  | tls
  | closeConn
deriving DecidableEq

def DialOp.isDial : DialOp → Bool
  | DialOp.closeConn => false
  | _ => true

/-- The state `foo` (transport.go lines 64-123) closes over: the single
connWrapper's connection slot `conn` (`cW.c`), a counter generating fresh
connection identities, and the trace of connection-level actions. -/
structure TransportState where
  conn : Option Nat
  nextConn : Nat
  trace : List DialEv
deriving DecidableEq

/-- `foo` constructs exactly one connWrapper with an empty slot
(transport.go lines 67-70). -/
def initTransport : TransportState := { conn := none, nextConn := 0, trace := [] }

/-- One call of the function `wrap(df)` returns (transport.go lines 72-88):
the underlying dial runs first — for TLS this includes the handshake, with
the protocol-negotiation advertisement stripped, inside `df` itself (lines
110-120) — then, on success, the shared connWrapper either panics because
its slot is already occupied (`true` in the second component) or is
attached to the new connection. -/
def dialStep (isTLS : Bool) (st : TransportState) : TransportState × Bool :=
  let id := st.nextConn
  let st := { st with nextConn := id + 1,
                      trace := st.trace ++ [DialEv.dialed id] ++
                        (if isTLS then [DialEv.handshake id] else []) }
  match st.conn with
  | some _ => (st, true)
  | none => ({ st with conn := some id,
                       trace := st.trace ++ [DialEv.attach id] }, false)

/-- `connWrapper.Close` (transport.go lines 39-41) closes the underlying
connection and leaves the slot `c` set; nothing in the modelled code reads
the underlying connection's closed flag, so the state is unchanged. -/
def closeStep (st : TransportState) : TransportState := st

/-- One operation against the transport; once a panic happened the task is
dead and nothing further executes. -/
def dialOpStep (p : TransportState × Bool) (op : DialOp) : TransportState × Bool :=
  if p.2 then p
  else
    match op with
    | DialOp.plain => dialStep false p.1
    | DialOp.tls => dialStep true p.1
    | DialOp.closeConn => (closeStep p.1, p.2)

/-- Run a sequence of operations against one transport instance, stopping
at the first panic (second component `true`). -/
def runDials (ops : List DialOp) : TransportState × Bool :=
  ops.foldl dialOpStep (initTransport, false)

/-- The number of dial operations (plain or TLS) in a sequence. -/
def dialCount (ops : List DialOp) : Nat :=
  ops.countP DialOp.isDial

/-- The possible traces after exactly one dial: the connWrapper is attached
to connection 0 after the dial and, for TLS, after its handshake. -/
def goodTrace1 (t : List DialEv) : Prop :=
  t = [DialEv.dialed 0, DialEv.attach 0] ∨
  t = [DialEv.dialed 0, DialEv.handshake 0, DialEv.attach 0]

/-- The possible traces after a second dial: the second connection is
dialed (and for TLS handshaken) but never attached — the dial panics. -/
def goodTrace2 (t : List DialEv) : Prop :=
  ∃ t1, goodTrace1 t1 ∧
    (t = t1 ++ [DialEv.dialed 1] ∨ t = t1 ++ [DialEv.dialed 1, DialEv.handshake 1])

/-- Invariant tying a transport state to the number of dial operations
attempted so far: zero dials leave the initial state, one dial attaches
connection 0, two or more dials panic on the second. -/
def dialShape (n : Nat) (p : TransportState × Bool) : Prop :=
  (n = 0 ∧ p = (initTransport, false)) ∨
  (n = 1 ∧ p.1.conn = some 0 ∧ p.1.nextConn = 1 ∧ p.2 = false ∧ goodTrace1 p.1.trace) ∨
  (2 ≤ n ∧ p.1.conn = some 0 ∧ p.1.nextConn = 2 ∧ p.2 = true ∧ goodTrace2 p.1.trace)

/-- Executable check that every handshake event on a connection strictly
precedes the attach event on the same connection. -/
def ordOK (t : List DialEv) : Bool :=
  (List.range t.length).all fun i =>
    (List.range t.length).all fun j =>
      match t[i]?, t[j]? with
      | some (DialEv.handshake c), some (DialEv.attach c') =>
        (c != c') || decide (i < j)
      | _, _ => true

/- ## Capturing transport: redirect handling -/

/-- The observable effects of one `Client.Do` call: how many times the
capture callback ran (`calls`) and how many request/response hops were
completed on the wire (`sent`). -/
structure ClientState where
  calls : Nat
  sent : Nat
deriving DecidableEq

/-- `checkRedirect` (transport.go lines 96-104): `triggerCallback` fires
the capture callback unconditionally, then the hook enforces the 10-hop
limit on the `via` list of already-issued requests, returning the
redirect-limit error as an ordinary error value. -/
def checkRedirect (st : ClientState) (viaLen : Nat) : ClientState × Option String :=
  let st := { st with calls := st.calls + 1 }
  if viaLen ≥ 10 then (st, some "stopped after 10 redirects") else (st, none)

/-- Modelled from the documented redirect-following semantics of the Go
standard HTTP client (`Client.Do`, an external collaborator outside the
sources): the client issues the request and receives a response; while the
response is a redirect it builds the next request and calls the
`CheckRedirect` hook with it and the list of requests already issued, and
a hook error aborts `Do`, which returns that error to the caller; the hook
is not called for a terminal (non-redirect) response.  `nRedirects` is the
number of redirect responses the server issues before a terminal one, and
`viaLen` the number of requests already issued. -/
def clientDoLoop : Nat → Nat → ClientState → ClientState × Option String
  | n, viaLen, st =>
    let st := { st with sent := st.sent + 1 }
    match n with
    | 0 => (st, none)
    | n' + 1 =>
      match checkRedirect st (viaLen + 1) with
      | (st, some e) => (st, some e)
      | (st, none) => clientDoLoop n' (viaLen + 1) st

def clientDo (nRedirects : Nat) : ClientState × Option String :=
  clientDoLoop nRedirects 0 { calls := 0, sent := 0 }

/-- `roundTripper.RoundTrip` (transport.go lines 134-143): delegates to
`c.Do` and passes its result through.  The capture call for the terminal
response is commented out in the source, so no callback invocation is
added here. -/
def roundTrip (nRedirects : Nat) : ClientState × Option String :=
  clientDo nRedirects

/- ## Invariants used by the rotator theorems -/

/-- Serial-number bookkeeping of a running `recordWriter`: the next serial
is one past the sealed files, the current file carries it, and the sealed
files carry `1, 2, …` in order. -/
def SerialInv (st : RWState) : Prop :=
  st.serial = st.sealedFiles.length + 1 ∧
  st.current.serial = st.serial ∧
  st.sealedFiles.map (fun f => f.serial) = List.range' 1 st.sealedFiles.length

/-- A sealed file under compression: every closed frame holds at most one
record, no stream is left open, every non-info record sits inside a closed
frame, and the first frame is exactly the info record. -/
def SealedOK (f : WFile) : Prop :=
  (∀ fr ∈ f.frames, fr.length ≤ 1) ∧
  f.openFrame = none ∧
  f.frames.flatten.filter (fun r => !r.isInfo) = f.recs ∧
  (∃ r, f.frames.head? = some [r] ∧ r.isInfo = true)

/-- The current file of a running compressed `recordWriter` between record
writes: like `SealedOK` but the stream may be open and empty. -/
def CurrentOK (f : WFile) : Prop :=
  (∀ fr ∈ f.frames, fr.length ≤ 1) ∧
  (f.openFrame = none ∨ f.openFrame = some []) ∧
  f.frames.flatten.filter (fun r => !r.isInfo) = f.recs ∧
  (∃ r, f.frames.head? = some [r] ∧ r.isInfo = true)

/-- Frame bookkeeping of a running compressed `recordWriter`. -/
def FrameInv (st : RWState) : Prop :=
  (∀ f ∈ st.sealedFiles, SealedOK f) ∧ CurrentOK st.current

/-- Every record written so far is stamped with the `CaptureTime` of the
batch it arrived in. -/
def DateInv (st : RWState) : Prop :=
  (∀ f ∈ st.sealedFiles, ∀ r ∈ f.recs, r.header.get "WARC-Date" = some r.batchTime) ∧
  (∀ r ∈ st.current.recs, r.header.get "WARC-Date" = some r.batchTime)

/-- Trace property: every rename action that is not the trace's final
action is immediately followed by a flush of the same file's writer (the
source renames first and flushes right after; only the shutdown rename is
final). -/
def TraceA (dir : String) (l : List Ev) : Prop :=
  ∀ (i : Nat) (o n : String), l[i]? = some (Ev.rename o n) → i + 1 < l.length →
    ∃ f, o = dir ++ f ∧ l[i + 1]? = some (Ev.flushFile f)

/-- Trace property: the trace does not end in a rename (true of every
prefix of a run before shutdown). -/
def TraceB (l : List Ev) : Prop :=
  ∀ (o n : String), l.getLast? ≠ some (Ev.rename o n)

/-- No rename action occurs in the list. -/
def noRen (l : List Ev) : Prop :=
  ∀ e ∈ l, ∀ (o n : String), e ≠ Ev.rename o n

/- # Theorems -/

/- ## The delimiter scan of headersFromRawData -/

theorem slice4_pattern_le {data : List Nat} {i : Nat}
    (h : slice4 data i = crlfcrlf) : i + 4 ≤ data.length := by
  have hl : (slice4 data i).length = 4 := by rw [h]; rfl
  unfold slice4 at hl
  rw [List.length_take, List.length_drop] at hl
  omega

/-- Soundness of the failing scan: when the loop panics (or runs out of
iterations having covered the whole input), no index carries the
delimiter. -/
theorem findDelimLoop_none (data : List Nat) :
    ∀ (iterRest : List Nat) (i : Nat),
      findDelimLoop data i iterRest = none →
      data.length ≤ i + iterRest.length →
      ∀ j, i ≤ j → slice4 data j ≠ crlfcrlf := by
  intro iterRest
  induction iterRest with
  | nil =>
    intro i _ hcov j hij hslice
    have hj4 : j + 4 ≤ data.length := slice4_pattern_le hslice
    simp at hcov
    omega
  | cons a iterRest ih =>
    intro i h hcov j hij hslice
    have hj4 : j + 4 ≤ data.length := slice4_pattern_le hslice
    unfold findDelimLoop at h
    by_cases hlen : data.length < i + 4
    · omega
    · rw [if_neg hlen] at h
      by_cases hsl : slice4 data i = crlfcrlf
      · rw [if_pos hsl] at h
        cases h
      · rw [if_neg hsl] at h
        rcases Nat.eq_or_lt_of_le hij with rfl | hlt
        · exact hsl hslice
        · exact ih (i + 1) h (by simpa [Nat.add_comm, Nat.add_left_comm] using hcov)
            j hlt hslice

/-- Soundness of the successful scan: the position returned is four past
the first index at or after `i` carrying the delimiter. -/
theorem findDelimLoop_some (data : List Nat) :
    ∀ (iterRest : List Nat) (i p : Nat),
      findDelimLoop data i iterRest = some p →
      ∃ j, i ≤ j ∧ slice4 data j = crlfcrlf ∧ p = j + 4 ∧
        ∀ k, i ≤ k → k < j → slice4 data k ≠ crlfcrlf := by
  intro iterRest
  induction iterRest with
  | nil =>
    intro i p h
    cases h
  | cons a iterRest ih =>
    intro i p h
    unfold findDelimLoop at h
    by_cases hlen : data.length < i + 4
    · rw [if_pos hlen] at h
      cases h
    · rw [if_neg hlen] at h
      by_cases hsl : slice4 data i = crlfcrlf
      · rw [if_pos hsl] at h
        refine ⟨i, le_rfl, hsl, (Option.some_inj.mp h).symm,
                fun k hk1 hk2 => absurd hk1 (by omega)⟩
      · rw [if_neg hsl] at h
        obtain ⟨j, hj1, hj2, hj3, hj4⟩ := ih (i + 1) p h
        refine ⟨j, by omega, hj2, hj3, fun k hk1 hk2 => ?_⟩
        rcases Nat.eq_or_lt_of_le hk1 with rfl | hlt
        · exact hsl
        · exact hj4 k hlt hk2

/-- C9: a raw byte sequence with no 4-byte CRLF-CRLF delimiter makes the
record builder fail fatally without emitting a record; when the delimiter
is present, everything up to and including its first occurrence is the
header block, parsed as field:value lines after the first line. -/
theorem c9_delimiter_scan (r : Record) (data : List Nat) :
    (hasDelim data = false → headersFromRawData r data = none) ∧
    (hasDelim data = true →
      ∃ i, slice4 data i = crlfcrlf ∧ (∀ j, j < i → slice4 data j ≠ crlfcrlf) ∧
        headersFromRawData r data = parseHeaderBlock r (data.take (i + 4))) := by
  constructor
  · intro hfalse
    cases hfd : findDelim data with
    | none => simp [headersFromRawData, hfd]
    | some p =>
      obtain ⟨j, _, hj2, _, _⟩ := findDelimLoop_some data data 0 p hfd
      have hj4 := slice4_pattern_le hj2
      have htrue : hasDelim data = true := by
        unfold hasDelim
        rw [List.any_eq_true]
        exact ⟨j, List.mem_range.mpr (by omega), decide_eq_true hj2⟩
      rw [htrue] at hfalse
      cases hfalse
  · intro htrue
    cases hfd : findDelim data with
    | none =>
      unfold hasDelim at htrue
      rw [List.any_eq_true] at htrue
      obtain ⟨j, _, hj⟩ := htrue
      exact absurd (of_decide_eq_true hj)
        (findDelimLoop_none data data 0 hfd (by simp) j (Nat.zero_le j))
    | some p =>
      obtain ⟨j, _, hj2, rfl, hj4⟩ := findDelimLoop_some data data 0 p hfd
      exact ⟨j, hj2, fun k hk => hj4 k (Nat.zero_le k) hk,
             by simp [headersFromRawData, hfd]⟩

/-- Witness for C9: a delimiter-free input is rejected outright, and an
input whose delimiter follows the first byte is parsed from the block up to
and including it. -/
theorem c9_delimiter_scan_witness :
    headersFromRawData NewRecord [72, 73] = none ∧
    (∃ i, slice4 [65, 13, 10, 13, 10] i = crlfcrlf ∧
      (∀ j, j < i → slice4 [65, 13, 10, 13, 10] j ≠ crlfcrlf) ∧
      headersFromRawData NewRecord [65, 13, 10, 13, 10] =
        parseHeaderBlock NewRecord (([65, 13, 10, 13, 10] : List Nat).take (i + 4))) :=
  ⟨(c9_delimiter_scan NewRecord [72, 73]).1 (by decide),
   (c9_delimiter_scan NewRecord [65, 13, 10, 13, 10]).2 (by decide)⟩

/- ## Redirect handling -/

/-- Full characterization of the redirect loop from an arbitrary point: with
`v ≤ 9` requests already issued, a server issuing `n` more redirect
responses produces `min n (10 - v)` further callback invocations and
`min (n + 1) (10 - v)` further completed hops, and the loop errors exactly
when the limit cuts the chain short. -/
theorem clientDoLoop_spec : ∀ (n v : Nat) (st : ClientState), v ≤ 9 →
    (clientDoLoop n v st).1.calls = st.calls + min n (10 - v) ∧
    (clientDoLoop n v st).1.sent = st.sent + min (n + 1) (10 - v) ∧
    (clientDoLoop n v st).2 =
      (if n < 10 - v then none else some "stopped after 10 redirects") := by
  intro n
  induction n with
  | zero =>
    intro v st hv
    have h1 : 0 < 10 - v := by omega
    refine ⟨?_, ?_, ?_⟩ <;> (simp [clientDoLoop, h1]; try omega)
  | succ n ih =>
    intro v st hv
    by_cases hv9 : v = 9
    · subst hv9
      have hcr : checkRedirect { st with sent := st.sent + 1 } (9 + 1) =
          ({ calls := st.calls + 1, sent := st.sent + 1 }, some "stopped after 10 redirects") := by
        simp [checkRedirect]
      refine ⟨?_, ?_, ?_⟩ <;> (simp [clientDoLoop, hcr]; try omega)
    · have hvlt : ¬ (v + 1 ≥ 10) := by omega
      have hcr : checkRedirect { st with sent := st.sent + 1 } (v + 1) =
          ({ calls := st.calls + 1, sent := st.sent + 1 }, none) := by
        simp [checkRedirect, hvlt]
      have ih' := ih (v + 1) { calls := st.calls + 1, sent := st.sent + 1 } (by omega)
      refine ⟨?_, ?_, ?_⟩
      · rw [show (clientDoLoop (n + 1) v st).1.calls =
            (clientDoLoop n (v + 1) { calls := st.calls + 1, sent := st.sent + 1 }).1.calls
          from by simp [clientDoLoop, hcr], ih'.1]
        simp
        omega
      · rw [show (clientDoLoop (n + 1) v st).1.sent =
            (clientDoLoop n (v + 1) { calls := st.calls + 1, sent := st.sent + 1 }).1.sent
          from by simp [clientDoLoop, hcr], ih'.2.1]
        simp
        omega
      · rw [show (clientDoLoop (n + 1) v st).2 =
            (clientDoLoop n (v + 1) { calls := st.calls + 1, sent := st.sent + 1 }).2
          from by simp [clientDoLoop, hcr], ih'.2.2]
        by_cases hcase : n + 1 < 10 - v
        · rw [if_pos (by omega), if_pos hcase]
        · rw [if_neg (by omega), if_neg hcase]

/-- C2 counterexample: a request whose response involves no redirect
completes (one hop on the wire, no error) with ZERO capture-callback
invocations, not the one invocation the claim states — the redirect-check
hook never runs for a terminal response and the terminal capture call in
`RoundTrip` is commented out. -/
theorem c2_terminal_hop_counterexample :
    (roundTrip 0).1.sent = 1 ∧ (roundTrip 0).2 = none ∧
    (roundTrip 0).1.calls = 0 ∧ ¬ (roundTrip 0).1.calls = 1 := by
  decide

/-- C2 (amended): the capture callback is invoked exactly once per redirect
hop (capped at the 10-hop limit) and never for the terminal hop: a request
answered with `n` redirect responses yields `min n 10` invocations — in
particular zero for a redirect-free request — completes `min (n + 1) 10`
hops, and succeeds exactly when `n < 10`. -/
theorem c2_callback_per_redirect_hop (n : Nat) :
    (roundTrip n).1.calls = min n 10 ∧
    (roundTrip n).1.sent = min (n + 1) 10 ∧
    ((roundTrip n).2 = none ↔ n < 10) := by
  have h := clientDoLoop_spec n 0 { calls := 0, sent := 0 } (by omega)
  have hrt : roundTrip n = clientDoLoop n 0 { calls := 0, sent := 0 } := rfl
  rw [hrt]
  refine ⟨by rw [h.1]; simp, by rw [h.2.1]; simp, ?_⟩
  rw [h.2.2]
  by_cases hc : n < 10
  · simp [if_pos (show n < 10 - 0 from by omega), hc]
  · simp [if_neg (show ¬ n < 10 - 0 from by omega), hc]

/-- C5: when the redirect chain exceeds 10 hops, the hook returns the
redirect-limit error as an ordinary error value to the HTTP caller, and by
then the capture callback has been invoked exactly once for each of the 10
hops completed on the wire. -/
theorem c5_redirect_limit (n : Nat) (h : 10 ≤ n) :
    (roundTrip n).2 = some "stopped after 10 redirects" ∧
    (roundTrip n).1.sent = 10 ∧ (roundTrip n).1.calls = 10 := by
  have hs := clientDoLoop_spec n 0 { calls := 0, sent := 0 } (by omega)
  have hrt : roundTrip n = clientDoLoop n 0 { calls := 0, sent := 0 } := rfl
  rw [hrt]
  refine ⟨?_, ?_, ?_⟩
  · rw [hs.2.2, if_neg (by omega)]
  · rw [hs.2.1]
    simp
    omega
  · rw [hs.1]
    simp
    omega

/-- Witness for C5 at a chain of 11 hops (10 redirects then a would-be
11th request): the limit error is returned after exactly 10 completed,
callback-captured hops. -/
theorem c5_redirect_limit_witness :
    (roundTrip 10).2 = some "stopped after 10 redirects" ∧
    (roundTrip 10).1.sent = 10 ∧ (roundTrip 10).1.calls = 10 :=
  c5_redirect_limit 10 (by decide)

/- ## Dials and the shared connWrapper -/

theorem dialShape_step (n : Nat) (p : TransportState × Bool) (op : DialOp)
    (h : dialShape n p) :
    dialShape (n + (if DialOp.isDial op then 1 else 0)) (dialOpStep p op) := by
  rcases h with ⟨rfl, rfl⟩ | ⟨rfl, hconn, hnext, hb, ht⟩ | ⟨h2, hconn, hnext, hb, ht⟩
  · cases op with
    | plain => exact Or.inr (Or.inl ⟨rfl, rfl, rfl, rfl, Or.inl rfl⟩)
    | tls => exact Or.inr (Or.inl ⟨rfl, rfl, rfl, rfl, Or.inr rfl⟩)
    | closeConn => exact Or.inl ⟨rfl, rfl⟩
  · obtain ⟨st, b⟩ := p
    simp only at hconn hnext hb ht
    subst hb
    cases op with
    | plain =>
      have hstep : dialOpStep (st, false) DialOp.plain =
          ({ st with nextConn := 2, trace := st.trace ++ [DialEv.dialed 1] }, true) := by
        simp [dialOpStep, dialStep, hconn, hnext]
      rw [hstep]
      exact Or.inr (Or.inr ⟨by simp [DialOp.isDial], hconn, rfl, rfl,
        st.trace, ht, Or.inl rfl⟩)
    | tls =>
      have hstep : dialOpStep (st, false) DialOp.tls =
          ({ st with nextConn := 2, trace := st.trace ++ [DialEv.dialed 1, DialEv.handshake 1] }, true) := by
        simp [dialOpStep, dialStep, hconn, hnext]
      rw [hstep]
      exact Or.inr (Or.inr ⟨by simp [DialOp.isDial], hconn, rfl, rfl,
        st.trace, ht, Or.inr rfl⟩)
    | closeConn =>
      exact Or.inr (Or.inl ⟨rfl, hconn, hnext, rfl, ht⟩)
  · obtain ⟨st, b⟩ := p
    simp only at hconn hnext hb ht
    subst hb
    exact Or.inr (Or.inr ⟨le_trans h2 (Nat.le_add_right n _), hconn, hnext, rfl, ht⟩)

theorem dialShape_run (ops : List DialOp) :
    dialShape (dialCount ops) (runDials ops) := by
  suffices h : ∀ (l : List DialOp) (n : Nat) (p : TransportState × Bool),
      dialShape n p → dialShape (n + dialCount l) (l.foldl dialOpStep p) by
    have := h ops 0 (initTransport, false) (Or.inl ⟨rfl, rfl⟩)
    simpa [runDials] using this
  intro l
  induction l with
  | nil =>
    intro n p hp
    simpa [dialCount] using hp
  | cons op rest ih =>
    intro n p hp
    have hstep := dialShape_step n p op hp
    have h2 := ih (n + (if DialOp.isDial op then 1 else 0)) (dialOpStep p op) hstep
    have harith : n + (if DialOp.isDial op then 1 else 0) + dialCount rest =
        n + dialCount (op :: rest) := by
      unfold dialCount
      rw [List.countP_cons]
      by_cases hop : DialOp.isDial op
      · simp only [if_pos hop]
        omega
      · simp only [hop, if_false]
        omega
    rw [harith] at h2
    rw [List.foldl_cons]
    exact h2

/-- Turn the executable handshake-before-attach check (decidable on a
concrete trace) into the unbounded positional statement. -/
theorem order_of_check {t : List DialEv} (h : ordOK t = true) :
    ∀ (i j c : Nat), t[i]? = some (DialEv.handshake c) →
      t[j]? = some (DialEv.attach c) → i < j := by
  intro i j c hi hj
  have hilen : i < t.length := by
    by_contra hcon
    rw [List.getElem?_eq_none (le_of_not_lt hcon)] at hi
    cases hi
  have hjlen : j < t.length := by
    by_contra hcon
    rw [List.getElem?_eq_none (le_of_not_lt hcon)] at hj
    cases hj
  unfold ordOK at h
  rw [List.all_eq_true] at h
  have h1 := h i (List.mem_range.mpr hilen)
  rw [List.all_eq_true] at h1
  have h2 := h1 j (List.mem_range.mpr hjlen)
  rw [hi, hj] at h2
  simpa using h2

/-- C10: the transport's single connWrapper slot is set by the first
successful dial and never cleared afterwards — `Close` does not clear it —
so a second dial always panics and at most one connection is ever attached
over the transport's lifetime, whatever mixture of dials and closes runs. -/
theorem c10_single_capture_slot (ops : List DialOp) :
    ((runDials ops).1.conn = none ↔ dialCount ops = 0) ∧
    ((runDials ops).2 = true ↔ 2 ≤ dialCount ops) ∧
    (runDials ops).1.trace.countP DialEv.isAttach ≤ 1 := by
  have h := dialShape_run ops
  rcases h with ⟨h0, hp⟩ | ⟨h1, hconn, hnext, hb, ht⟩ | ⟨h2, hconn, hnext, hb, ht⟩
  · rw [hp, h0]
    refine ⟨by simp [initTransport], by simp [initTransport], by simp [initTransport]⟩
  · refine ⟨by rw [hconn, h1]; simp, by rw [hb, h1]; simp, ?_⟩
    rcases ht with h | h <;> rw [h] <;> decide
  · refine ⟨by rw [hconn]; simp; omega, by rw [hb]; simp [h2], ?_⟩
    obtain ⟨t1, ht1, hrest⟩ := ht
    have hc1 : t1.countP DialEv.isAttach = 1 := by
      rcases ht1 with h | h <;> rw [h] <;> decide
    rcases hrest with h | h <;> rw [h, List.countP_append, hc1] <;> decide

/-- C4 counterexample: on a TLS dial the handshake completes before the
connWrapper is attached (the trace shows the handshake strictly earlier),
and a second dial panics instead of receiving a fresh capture — refuting
"attached before the handshake completes" and "each dial gets its own
capture buffer pair" at concrete inputs. -/
theorem c4_fresh_capture_counterexample :
    (runDials [DialOp.tls]).1.trace =
      [DialEv.dialed 0, DialEv.handshake 0, DialEv.attach 0] ∧
    ¬ List.Sublist [DialEv.attach 0, DialEv.handshake 0]
        (runDials [DialOp.tls]).1.trace ∧
    (runDials [DialOp.plain, DialOp.plain]).2 = true ∧
    (runDials [DialOp.plain, DialOp.plain]).1.trace.countP DialEv.isAttach = 1 := by
  decide

/-- C4 (amended): `foo` creates one connWrapper shared by every dial of the
transport; the first dial (plain or TLS) attaches it to the dialed
connection — for TLS only after the handshake has completed — and every
subsequent dial panics, so at most one attach ever occurs and a handshake
on a connection always strictly precedes its attach in the action trace. -/
theorem c4_shared_capture_attach_order (ops : List DialOp) :
    (runDials ops).1.trace.countP DialEv.isAttach ≤ 1 ∧
    (∀ (i j c : Nat), (runDials ops).1.trace[i]? = some (DialEv.handshake c) →
      (runDials ops).1.trace[j]? = some (DialEv.attach c) → i < j) ∧
    (2 ≤ dialCount ops → (runDials ops).2 = true) := by
  have h := dialShape_run ops
  rcases h with ⟨h0, hp⟩ | ⟨h1, hconn, hnext, hb, ht⟩ | ⟨h2, hconn, hnext, hb, ht⟩
  · rw [hp]
    refine ⟨by simp [initTransport], ?_, by rw [h0]; omega⟩
    rw [show (initTransport, false).1.trace = [] from rfl]
    exact order_of_check (by decide)
  · refine ⟨?_, ?_, by intro hcon; rw [h1] at hcon; omega⟩ <;>
      rcases ht with h | h <;> rw [h]
    · decide
    · decide
    · exact order_of_check (by decide)
    · exact order_of_check (by decide)
  · obtain ⟨t1, ht1, hrest⟩ := ht
    refine ⟨?_, ?_, fun _ => hb⟩
    · have hc1 : t1.countP DialEv.isAttach = 1 := by
        rcases ht1 with h | h <;> rw [h] <;> decide
      rcases hrest with h | h <;> rw [h, List.countP_append, hc1] <;> decide
    · rcases ht1 with h1t | h1t <;> rcases hrest with h | h <;>
        rw [h, h1t] <;> exact order_of_check (by decide)

/-- Witness for C4 (amended): with one TLS dial then one plain dial, the
second dial panics, and in the single-TLS-dial trace the handshake at
index 1 precedes the attach at index 2. -/
theorem c4_shared_capture_attach_order_witness :
    (runDials [DialOp.tls, DialOp.plain]).2 = true ∧ (1 : Nat) < 2 :=
  ⟨(c4_shared_capture_attach_order [DialOp.tls, DialOp.plain]).2.2 (by decide),
   (c4_shared_capture_attach_order [DialOp.tls]).2.1 1 2 0 (by decide) (by decide)⟩


/- ## File-combinator projection toolkit -/

@[simp] theorem newWriterF_serial (c : String) (f : WFile) :
    (newWriterF c f).serial = f.serial := by
  unfold newWriterF; split <;> rfl

@[simp] theorem newWriterF_recs (c : String) (f : WFile) :
    (newWriterF c f).recs = f.recs := by
  unfold newWriterF; split <;> rfl

@[simp] theorem newWriterF_infoId (c : String) (f : WFile) :
    (newWriterF c f).infoId = f.infoId := by
  unfold newWriterF; split <;> rfl

@[simp] theorem newWriterF_frames (c : String) (f : WFile) :
    (newWriterF c f).frames = f.frames := by
  unfold newWriterF; split <;> rfl

theorem newWriterF_openFrame (c : String) (f : WFile) :
    (newWriterF c f).openFrame = if compEnabled c then some [] else f.openFrame := by
  unfold newWriterF; split <;> simp_all

@[simp] theorem closeCompressionF_serial (f : WFile) :
    (closeCompressionF f).serial = f.serial := by
  obtain ⟨n, sr, ii, rc, fr, op, rn, cl⟩ := f
  unfold closeCompressionF; cases op <;> rfl

@[simp] theorem closeCompressionF_recs (f : WFile) :
    (closeCompressionF f).recs = f.recs := by
  obtain ⟨n, sr, ii, rc, fr, op, rn, cl⟩ := f
  unfold closeCompressionF; cases op <;> rfl

@[simp] theorem closeCompressionF_infoId (f : WFile) :
    (closeCompressionF f).infoId = f.infoId := by
  obtain ⟨n, sr, ii, rc, fr, op, rn, cl⟩ := f
  unfold closeCompressionF; cases op <;> rfl

@[simp] theorem closeCompressionF_openFrame (f : WFile) :
    (closeCompressionF f).openFrame = none := by
  obtain ⟨n, sr, ii, rc, fr, op, rn, cl⟩ := f
  unfold closeCompressionF; cases op <;> rfl

@[simp] theorem closeCompressionF_frames (f : WFile) :
    (closeCompressionF f).frames = f.frames ++ f.openFrame.toList := by
  obtain ⟨n, sr, ii, rc, fr, op, rn, cl⟩ := f
  unfold closeCompressionF; cases op <;> simp

@[simp] theorem writeRecF_serial (f : WFile) (r : WrittenRec) :
    (writeRecF f r).serial = f.serial := rfl

@[simp] theorem writeRecF_infoId (f : WFile) (r : WrittenRec) :
    (writeRecF f r).infoId = f.infoId := rfl

@[simp] theorem writeRecF_frames (f : WFile) (r : WrittenRec) :
    (writeRecF f r).frames = f.frames := rfl

@[simp] theorem writeRecF_recs (f : WFile) (r : WrittenRec) :
    (writeRecF f r).recs = f.recs ++ [r] := rfl

@[simp] theorem writeRecF_openFrame (f : WFile) (r : WrittenRec) :
    (writeRecF f r).openFrame = f.openFrame.map (fun l => l ++ [r]) := rfl

@[simp] theorem writeInfoF_serial (f : WFile) (id : String) (c : Header) :
    (writeInfoF f id c).serial = f.serial := rfl

@[simp] theorem writeInfoF_recs (f : WFile) (id : String) (c : Header) :
    (writeInfoF f id c).recs = f.recs := rfl

@[simp] theorem writeInfoF_frames (f : WFile) (id : String) (c : Header) :
    (writeInfoF f id c).frames = f.frames := rfl

@[simp] theorem writeInfoF_infoId (f : WFile) (id : String) (c : Header) :
    (writeInfoF f id c).infoId = id := rfl

@[simp] theorem sealCurrent_serial (s : RotatorSettings) (st : RWState) :
    (sealCurrent s st).serial = st.current.serial := by
  unfold sealCurrent; split <;> simp

@[simp] theorem sealCurrent_recs (s : RotatorSettings) (st : RWState) :
    (sealCurrent s st).recs = st.current.recs := by
  unfold sealCurrent; split <;> simp

@[simp] theorem sealCurrent_infoId (s : RotatorSettings) (st : RWState) :
    (sealCurrent s st).infoId = st.current.infoId := by
  unfold sealCurrent; split <;> simp

@[simp] theorem rotNewFile_serial (s : RotatorSettings) (st : RWState) :
    (rotNewFile s st).serial = st.serial + 1 := by
  unfold rotNewFile freshFile; split <;> simp

@[simp] theorem rotNewFile_recs (s : RotatorSettings) (st : RWState) :
    (rotNewFile s st).recs = [] := by
  unfold rotNewFile freshFile; split <;> simp

@[simp] theorem rotNewFile_infoId (s : RotatorSettings) (st : RWState) :
    (rotNewFile s st).infoId = uuid st.nextId := by
  unfold rotNewFile freshFile; split <;> simp

@[simp] theorem finalSeal_serial (s : RotatorSettings) (st : RWState) :
    (finalSeal s st).serial = st.current.serial := by
  unfold finalSeal; split <;> simp

@[simp] theorem finalSeal_recs (s : RotatorSettings) (st : RWState) :
    (finalSeal s st).recs = st.current.recs := by
  unfold finalSeal; split <;> simp

@[simp] theorem finalSeal_infoId (s : RotatorSettings) (st : RWState) :
    (finalSeal s st).infoId = st.current.infoId := by
  unfold finalSeal; split <;> simp

@[simp] theorem rotateStep_serial (s : RotatorSettings) (st : RWState) :
    (rotateStep s st).serial = st.serial + 1 := rfl

@[simp] theorem rotateStep_sealedFiles (s : RotatorSettings) (st : RWState) :
    (rotateStep s st).sealedFiles = st.sealedFiles ++ [sealCurrent s st] := rfl

@[simp] theorem rotateStep_current (s : RotatorSettings) (st : RWState) :
    (rotateStep s st).current = rotNewFile s st := rfl

@[simp] theorem rotateStep_warcinfoId (s : RotatorSettings) (st : RWState) :
    (rotateStep s st).currentWarcinfoRecordID = st.currentWarcinfoRecordID := rfl

@[simp] theorem shutdownRW_sealedFiles (s : RotatorSettings) (st : RWState) :
    (shutdownRW s st).sealedFiles = st.sealedFiles ++ [finalSeal s st] := rfl
/- ## Header set/get -/

theorem find_map_set {k v : String} :
    ∀ (h : Header),
      (h.map (fun q => if q.1 = k then (k, v) else q)).find? (fun q => q.1 = k) =
        if h.any (fun q => q.1 = k) then some (k, v) else none := by
  intro h
  induction h with
  | nil => simp
  | cons q t ih =>
    by_cases hq : q.1 = k
    · rw [List.map_cons, if_pos hq, List.find?_cons_of_pos _ (by simp), List.any_cons]
      simp [hq]
    · rw [List.map_cons, if_neg hq, List.find?_cons_of_neg _ (by simpa using hq),
          List.any_cons, ih]
      rw [decide_eq_false hq]
      simp only [Bool.false_or]

theorem find_map_set_ne {k v k' : String} (hne : k' ≠ k) :
    ∀ (t : Header),
      (t.map (fun q => if q.1 = k then (k, v) else q)).find? (fun q => q.1 = k') =
        t.find? (fun q => q.1 = k') := by
  intro t
  induction t with
  | nil => simp
  | cons q t ih =>
    by_cases hq : q.1 = k
    · have hq' : ¬ ((k, v) : String × String).1 = k' := fun hc => hne hc.symm
      have hq'' : ¬ q.1 = k' := by rw [hq]; exact fun hc => hne hc.symm
      rw [List.map_cons, if_pos hq, List.find?_cons_of_neg _ (by simpa using hq'),
          List.find?_cons_of_neg _ (by simpa using hq''), ih]
    · by_cases hq2 : q.1 = k'
      · rw [List.map_cons, if_neg hq, List.find?_cons_of_pos _ (by simpa using hq2),
            List.find?_cons_of_pos _ (by simpa using hq2)]
      · rw [List.map_cons, if_neg hq, List.find?_cons_of_neg _ (by simpa using hq2),
            List.find?_cons_of_neg _ (by simpa using hq2), ih]

theorem find_append_single {k v k' : String} (h : Header) :
    (h ++ [(k, v)]).find? (fun q => q.1 = k') =
      ((h.find? (fun q => q.1 = k')).orElse
        (fun _ => if k = k' then some (k, v) else none)) := by
  induction h with
  | nil =>
    simp only [List.nil_append, Option.orElse]
    by_cases hk : k = k' <;> simp [List.find?, hk]
  | cons q t ih =>
    by_cases hq : q.1 = k'
    · rw [List.cons_append, List.find?_cons_of_pos _ (by simpa using hq),
          List.find?_cons_of_pos _ (by simpa using hq)]
      rfl
    · rw [List.cons_append, List.find?_cons_of_neg _ (by simpa using hq),
          List.find?_cons_of_neg _ (by simpa using hq), ih]

theorem Header.get_set_self (h : Header) (k v : String) :
    (h.set k v).get k = some v := by
  unfold Header.set Header.get
  by_cases hany : h.any (fun q => q.1 = k)
  · rw [if_pos hany, find_map_set h, if_pos hany]
    rfl
  · rw [if_neg hany, find_append_single h]
    have hnone : h.find? (fun q => q.1 = k) = none := by
      rw [List.find?_eq_none]
      intro q hq hcon
      simp only [List.any_eq_true] at hany
      exact hany ⟨q, hq, hcon⟩
    rw [hnone]
    simp [Option.orElse]

theorem Header.get_set_ne (h : Header) (k v k' : String) (hne : k' ≠ k) :
    (h.set k v).get k' = h.get k' := by
  unfold Header.set Header.get
  by_cases hany : h.any (fun q => q.1 = k)
  · rw [if_pos hany, find_map_set_ne hne h]
  · rw [if_neg hany, find_append_single h]
    cases hf : h.find? (fun q => q.1 = k') with
    | some q => simp [Option.orElse]
    | none => simp [Option.orElse, if_neg (fun hc : k = k' => hne hc.symm)]

/- ## Generic fold preservation -/

theorem foldl_preserve {α : Type} {β : Type} (P : α → Prop) (f : α → β → α)
    (hf : ∀ a b, P a → P (f a b)) :
    ∀ (l : List β) (a : α), P a → P (l.foldl f a) := by
  intro l
  induction l with
  | nil => intro a ha; exact ha
  | cons b t ih =>
    intro a ha
    exact ih (f a b) (hf a b ha)

/- ## Serial numbers (C7) -/

theorem serialInv_init (s : RotatorSettings) : SerialInv (initState s) := by
  unfold SerialInv initState freshFile
  by_cases hc : compEnabled s.compression <;> simp [hc]

theorem serialInv_writeOne (s : RotatorSettings) (t : String)
    (st : RWState) (r : Record) (h : SerialInv st) :
    SerialInv (writeOneRecord s t st r) := by
  obtain ⟨h1, h2, h3⟩ := h
  refine ⟨h1, ?_, h3⟩
  show (writeOneRecord s t st r).current.serial = st.serial
  unfold writeOneRecord
  by_cases hc : compEnabled s.compression <;> simp [hc, h2]

theorem serialInv_processBatch (s : RotatorSettings) (st : RWState)
    (b : RecordBatch) (h : SerialInv st) : SerialInv (processBatch s st b) := by
  unfold processBatch
  have hrot : SerialInv (if isFileSizeExceeded st.current s.warcSize
      then rotateStep s st else st) := by
    by_cases hex : isFileSizeExceeded st.current s.warcSize
    · rw [if_pos hex]
      obtain ⟨h1, h2, h3⟩ := h
      refine ⟨?_, ?_, ?_⟩
      · simp [h1]
      · simp
      · simp only [rotateStep_sealedFiles, List.map_append, List.map_cons,
          List.map_nil, sealCurrent_serial, List.length_append, List.length_cons,
          List.length_nil, h3]
        have hser : st.current.serial = 1 + st.sealedFiles.length := by omega
        rw [hser, ← List.range'_1_concat]
    · rw [if_neg hex]
      exact h
  have hfold := foldl_preserve SerialInv (writeOneRecord s b.captureTime)
    (fun a r ha => serialInv_writeOne s b.captureTime a r ha) b.records _ hrot
  exact hfold

/-- C7: the serial numbers used in the file names of one Rotator run are
exactly 1, 2, 3, … in creation order: the first file uses serial 1 and
every rotation increments the serial by one — strictly increasing, no gaps,
no repeats. -/
theorem c7_serials_sequential (s : RotatorSettings) (batches : List RecordBatch) :
    (recordWriter s batches).sealedFiles.map (fun f => f.serial) =
      List.range' 1 (recordWriter s batches).sealedFiles.length := by
  have hrun : SerialInv (batches.foldl (processBatch s) (initState s)) :=
    foldl_preserve SerialInv (processBatch s)
      (fun a b ha => serialInv_processBatch s a b ha) batches _ (serialInv_init s)
  obtain ⟨h1, h2, h3⟩ := hrun
  unfold recordWriter
  simp only [shutdownRW_sealedFiles, List.map_append, List.map_cons, List.map_nil,
    finalSeal_serial, List.length_append, List.length_cons, List.length_nil, h3]
  have hser : (batches.foldl (processBatch s) (initState s)).current.serial =
      1 + (batches.foldl (processBatch s) (initState s)).sealedFiles.length := by omega
  rw [hser, ← List.range'_1_concat]

/- ## The shadowed warcinfo identifier (C1) -/

/-- C1 fails on the code: after a size-triggered rotation, the record
written to the second file is stamped with the FIRST file's info-record
identifier (`uuid-0`) although the second file's own info record has the
fresh identifier `uuid-1` — line 315 of the source binds the new
identifier with `:=`, which shadows the outer `currentWarcinfoRecordID`
and discards it at line 319 (`_ = currentWarcinfoRecordID`). -/
theorem c1_warcinfo_id_shadowing_bug :
    (recordWriter
      { warcinfoContent := [("software", "test")], filePrefix := "T",
        compression := "", warcSize := 1, outputDirectory := "" }
      [{ captureTime := "t1", records := [{ header := [], content := [0, 0] }] },
       { captureTime := "t2", records := [{ header := [], content := [0, 0] }] }]).sealedFiles.map
      (fun f => (f.serial, f.infoId, f.recs.map (fun r => r.header.get "WARC-Warcinfo-ID"))) =
    [(1, "uuid-0", [some "<urn:uuid:uuid-0>"]),
     (2, "uuid-1", [some "<urn:uuid:uuid-0>"])] := by
  decide

/- ## Two-record batches and the shared capture time (C6) -/

theorem dateInv_init (s : RotatorSettings) : DateInv (initState s) := by
  constructor
  · intro f hf
    unfold initState at hf
    simp at hf
  · intro r hr
    unfold initState freshFile at hr
    by_cases hc : compEnabled s.compression <;> simp [hc] at hr

theorem dateInv_writeOne (s : RotatorSettings) (t : String)
    (st : RWState) (r : Record) (h : DateInv st) :
    DateInv (writeOneRecord s t st r) := by
  obtain ⟨hs, hcur⟩ := h
  constructor
  · intro f hf
    exact hs f hf
  · intro wr hwr
    have hrecs : (writeOneRecord s t st r).current.recs = st.current.recs ++
        [{ header := (r.header.set "WARC-Date" t).set "WARC-Warcinfo-ID"
              ("<urn:uuid:" ++ st.currentWarcinfoRecordID ++ ">"),
           contentLen := r.content.length, isInfo := false, batchTime := t }] := by
      unfold writeOneRecord
      by_cases hc : compEnabled s.compression <;> simp [hc]
    rw [hrecs] at hwr
    rcases List.mem_append.mp hwr with hin | hin
    · exact hcur wr hin
    · have heq := List.mem_singleton.mp hin
      subst heq
      show ((r.header.set "WARC-Date" t).set "WARC-Warcinfo-ID"
        ("<urn:uuid:" ++ st.currentWarcinfoRecordID ++ ">")).get "WARC-Date" = some t
      rw [Header.get_set_ne _ _ _ _ (by decide), Header.get_set_self]

theorem dateInv_processBatch (s : RotatorSettings) (st : RWState)
    (b : RecordBatch) (h : DateInv st) : DateInv (processBatch s st b) := by
  unfold processBatch
  have hrot : DateInv (if isFileSizeExceeded st.current s.warcSize
      then rotateStep s st else st) := by
    by_cases hex : isFileSizeExceeded st.current s.warcSize
    · rw [if_pos hex]
      obtain ⟨hs, hcur⟩ := h
      constructor
      · intro f hf
        rw [rotateStep_sealedFiles] at hf
        rcases List.mem_append.mp hf with hin | hin
        · exact hs f hin
        · have heq := List.mem_singleton.mp hin
          subst heq
          intro r hr
          rw [sealCurrent_recs] at hr
          exact hcur r hr
      · intro r hr
        rw [rotateStep_current, rotNewFile_recs] at hr
        cases hr
    · rw [if_neg hex]
      exact h
  exact foldl_preserve DateInv (writeOneRecord s b.captureTime)
    (fun a r ha => dateInv_writeOne s b.captureTime a r ha) b.records _ hrot

theorem dateInv_run (s : RotatorSettings) (batches : List RecordBatch) :
    DateInv (recordWriter s batches) := by
  have hrun : DateInv (batches.foldl (processBatch s) (initState s)) :=
    foldl_preserve DateInv (processBatch s)
      (fun a b ha => dateInv_processBatch s a b ha) batches _ (dateInv_init s)
  obtain ⟨hs, hcur⟩ := hrun
  constructor
  · intro f hf
    unfold recordWriter at hf
    rw [shutdownRW_sealedFiles] at hf
    rcases List.mem_append.mp hf with hin | hin
    · exact hs f hin
    · have heq := List.mem_singleton.mp hin
      subst heq
      intro r hr
      rw [finalSeal_recs] at hr
      exact hcur r hr
  · intro r hr
    unfold recordWriter at hr
    show r.header.get "WARC-Date" = some r.batchTime
    have : (shutdownRW s (batches.foldl (processBatch s) (initState s))).current.recs =
        (batches.foldl (processBatch s) (initState s)).current.recs := by
      show (finalSeal s _).recs = _
      rw [finalSeal_recs]
    rw [this] at hr
    exact hcur r hr

/-- C6: a batch built by the capture callback or by a successful
`RecordsFromHTTPResponse` holds exactly two records, the response record
first and the request record second, carrying the batch's capture time;
and when the rotator writes a batch it stamps every record's `WARC-Date`
with that batch's single `CaptureTime`. -/
theorem c6_two_records_shared_date :
    (∀ req resp reqData respData now b,
      rawResponseCallback req resp reqData respData now = some b →
        b.captureTime = now ∧ b.records.length = 2 ∧
        b.records.map (fun r => r.header.get "WARC-Type") =
          [some "response", some "request"]) ∧
    (∀ resp now, (RecordsFromHTTPResponse resp now).2 = none →
        (RecordsFromHTTPResponse resp now).1.captureTime = now ∧
        (RecordsFromHTTPResponse resp now).1.records.length = 2 ∧
        (RecordsFromHTTPResponse resp now).1.records.map
          (fun r => r.header.get "WARC-Type") = [some "response", some "request"]) ∧
    (∀ s batches, ∀ f ∈ (recordWriter s batches).sealedFiles,
      ∀ r ∈ f.recs, r.header.get "WARC-Date" = some r.batchTime) := by
  refine ⟨?_, ?_, ?_⟩
  · intro req resp reqData respData now b h
    unfold rawResponseCallback at h
    cases hresp : headersFromRawData NewRecord respData with
    | none => rw [hresp] at h; cases h
    | some r1 =>
      rw [hresp] at h
      cases hreq : headersFromRawData NewRecord reqData with
      | none => rw [hreq] at h; cases h
      | some r2 =>
        rw [hreq] at h
        rw [Option.some_inj] at h
        subst h
        have hget1 : ((((r1.header.set "WARC-Type" "response").set
            "WARC-Payload-Digest" ("sha1:" ++ GetSHA1 respData)).set
            "WARC-Target-URI" req.urlString).set
            "Content-Type" "application/http; msgtype=response").get "WARC-Type" =
            some "response" := by
          rw [Header.get_set_ne _ _ _ _ (by decide), Header.get_set_ne _ _ _ _ (by decide),
              Header.get_set_ne _ _ _ _ (by decide), Header.get_set_self]
        have hget2 : (((((r2.header.set "WARC-Type" "request").set
            "WARC-Payload-Digest" ("sha1:" ++ GetSHA1 reqData)).set
            "WARC-Target-URI" req.urlString).set
            "Host" req.urlHost).set
            "Content-Type" "application/http; msgtype=request").get "WARC-Type" =
            some "request" := by
          rw [Header.get_set_ne _ _ _ _ (by decide), Header.get_set_ne _ _ _ _ (by decide),
              Header.get_set_ne _ _ _ _ (by decide), Header.get_set_ne _ _ _ _ (by decide),
              Header.get_set_self]
        refine ⟨rfl, rfl, ?_⟩
        simp only [NewRecordBatch, List.nil_append, List.map_cons, List.map_nil,
          hget1, hget2]
  · intro resp now h
    unfold RecordsFromHTTPResponse at h ⊢
    cases hd1 : resp.responseDump with
    | none => rw [hd1] at h; cases h
    | some d1 =>
      rw [hd1] at h
      cases hd2 : resp.requestDump with
      | none => rw [hd2] at h; cases h
      | some d2 =>
        rw [hd2] at h
        have hget1 : ((((NewRecord.header.set "WARC-Type" "response").set
            "WARC-Payload-Digest" ("sha1:" ++ GetSHA1 d1)).set
            "WARC-Target-URI" resp.request.urlString).set
            "Content-Type" "application/http; msgtype=response").get "WARC-Type" =
            some "response" := by
          rw [Header.get_set_ne _ _ _ _ (by decide), Header.get_set_ne _ _ _ _ (by decide),
              Header.get_set_ne _ _ _ _ (by decide), Header.get_set_self]
        have hget2 : (((((NewRecord.header.set "WARC-Type" "request").set
            "WARC-Payload-Digest" ("sha1:" ++ GetSHA1 d2)).set
            "WARC-Target-URI" resp.request.urlString).set
            "Host" resp.request.urlHost).set
            "Content-Type" "application/http; msgtype=request").get "WARC-Type" =
            some "request" := by
          rw [Header.get_set_ne _ _ _ _ (by decide), Header.get_set_ne _ _ _ _ (by decide),
              Header.get_set_ne _ _ _ _ (by decide), Header.get_set_ne _ _ _ _ (by decide),
              Header.get_set_self]
        refine ⟨rfl, rfl, ?_⟩
        simp only [NewRecordBatch, List.nil_append, List.map_cons, List.map_nil,
          hget1, hget2]
  · intro s batches f hf r hr
    exact (dateInv_run s batches).1 f hf r hr

/-- Witness for C6: a concrete captured exchange yields the two-record
response-then-request batch stamped with its capture time; a concrete
successful dump does the same; and a concretely stamped written record
carries its batch's capture time as `WARC-Date`. -/
theorem c6_two_records_shared_date_witness :
    ((rawResponseCallback ⟨"u", "h", none⟩
        ⟨⟨"u", "h", none⟩, none, none, none⟩
        [65, 13, 10, 13, 10] [65, 13, 10, 13, 10] "T").map
      (fun b => (b.captureTime, b.records.length,
        b.records.map (fun r => r.header.get "WARC-Type"))) =
      some ("T", 2, [some "response", some "request"])) ∧
    ((RecordsFromHTTPResponse
        ⟨⟨"u", "h", none⟩, none, some [72], some [71]⟩ "T").1.records.map
      (fun r => r.header.get "WARC-Type") = [some "response", some "request"]) ∧
    ((⟨[("WARC-Date", "t1"), ("WARC-Warcinfo-ID", "<urn:uuid:uuid-0>")], 2, false,
        "t1"⟩ : WrittenRec).header.get "WARC-Date" = some "t1") := by
  refine ⟨?_, ?_, ?_⟩
  · cases hb : rawResponseCallback ⟨"u", "h", none⟩
        ⟨⟨"u", "h", none⟩, none, none, none⟩
        [65, 13, 10, 13, 10] [65, 13, 10, 13, 10] "T" with
    | none => exact absurd hb (by decide)
    | some b =>
      have h := c6_two_records_shared_date.1 _ _ _ _ _ b hb
      have hb2 : b.records.map (fun r => r.header.get "WARC-Type") =
          [some "response", some "request"] := h.2.2
      simp [h.1, h.2.1, hb2]
  · exact (c6_two_records_shared_date.2.1
      ⟨⟨"u", "h", none⟩, none, some [72], some [71]⟩ "T" (by decide)).2.2
  · have hsf : (recordWriter ⟨[("software", "test")], "T", "", 1, ""⟩
        [⟨"t1", [⟨[], [0, 0]⟩]⟩]).sealedFiles =
        [⟨"T-TS-1-HOST.warc", 1, "uuid-0",
          [⟨[("WARC-Date", "t1"), ("WARC-Warcinfo-ID", "<urn:uuid:uuid-0>")], 2, false, "t1"⟩],
          [], none, true, true⟩] := by decide
    exact c6_two_records_shared_date.2.2
      ⟨[("software", "test")], "T", "", 1, ""⟩
      [⟨"t1", [⟨[], [0, 0]⟩]⟩]
      ⟨"T-TS-1-HOST.warc", 1, "uuid-0",
        [⟨[("WARC-Date", "t1"), ("WARC-Warcinfo-ID", "<urn:uuid:uuid-0>")], 2, false, "t1"⟩],
        [], none, true, true⟩
      (by rw [hsf]; exact List.mem_singleton_self _)
      ⟨[("WARC-Date", "t1"), ("WARC-Warcinfo-ID", "<urn:uuid:uuid-0>")], 2, false, "t1"⟩
      (List.mem_singleton_self _)

/- ## Per-record compression frames (C8) -/

theorem head?_append_left {α : Type} {l l' : List α} {x : α}
    (h : l.head? = some x) : (l ++ l').head? = some x := by
  cases l with
  | nil => cases h
  | cons a t => simpa using h

theorem sealCurrent_frames_comp (s : RotatorSettings) (st : RWState)
    (hc : compEnabled s.compression = true) :
    (sealCurrent s st).frames = st.current.frames ++ st.current.openFrame.toList := by
  unfold sealCurrent
  simp [hc]

theorem sealCurrent_openFrame_comp (s : RotatorSettings) (st : RWState)
    (hc : compEnabled s.compression = true) :
    (sealCurrent s st).openFrame = none := by
  unfold sealCurrent
  simp [hc]

theorem finalSeal_frames_comp (s : RotatorSettings) (st : RWState)
    (hc : compEnabled s.compression = true) :
    (finalSeal s st).frames = st.current.frames ++ st.current.openFrame.toList := by
  unfold finalSeal
  simp [hc]

theorem finalSeal_openFrame_comp (s : RotatorSettings) (st : RWState)
    (hc : compEnabled s.compression = true) :
    (finalSeal s st).openFrame = none := by
  unfold finalSeal
  simp [hc]

theorem sealedOK_of_currentOK (s : RotatorSettings) (st : RWState)
    (hc : compEnabled s.compression = true)
    (h : CurrentOK st.current) : SealedOK (sealCurrent s st) := by
  obtain ⟨hframes, hopen, hfilter, r0, hhead, hinfo⟩ := h
  refine ⟨?_, ?_, ?_, ⟨r0, ?_, hinfo⟩⟩
  · intro fr hfr
    rw [sealCurrent_frames_comp s st hc] at hfr
    rcases List.mem_append.mp hfr with hin | hin
    · exact hframes fr hin
    · rcases hopen with hop | hop <;> simp [hop] at hin
      rw [hin]
      simp
  · exact sealCurrent_openFrame_comp s st hc
  · rw [sealCurrent_frames_comp s st hc, sealCurrent_recs]
    rcases hopen with hop | hop <;>
      simp only [hop, Option.toList_none, Option.toList_some, List.append_nil,
        List.flatten_append, List.flatten_cons, List.flatten_nil, List.filter_append,
        List.filter_nil] <;>
      simpa using hfilter
  · rw [sealCurrent_frames_comp s st hc]
    exact head?_append_left hhead

theorem sealedOK_final (s : RotatorSettings) (st : RWState)
    (hc : compEnabled s.compression = true)
    (h : CurrentOK st.current) : SealedOK (finalSeal s st) := by
  obtain ⟨hframes, hopen, hfilter, r0, hhead, hinfo⟩ := h
  refine ⟨?_, ?_, ?_, ⟨r0, ?_, hinfo⟩⟩
  · intro fr hfr
    rw [finalSeal_frames_comp s st hc] at hfr
    rcases List.mem_append.mp hfr with hin | hin
    · exact hframes fr hin
    · rcases hopen with hop | hop <;> simp [hop] at hin
      rw [hin]
      simp
  · exact finalSeal_openFrame_comp s st hc
  · rw [finalSeal_frames_comp s st hc, finalSeal_recs]
    rcases hopen with hop | hop <;>
      simp only [hop, Option.toList_none, Option.toList_some, List.append_nil,
        List.flatten_append, List.flatten_cons, List.flatten_nil, List.filter_append,
        List.filter_nil] <;>
      simpa using hfilter
  · rw [finalSeal_frames_comp s st hc]
    exact head?_append_left hhead

theorem currentOK_fresh_info (s : RotatorSettings) (hc : compEnabled s.compression = true)
    (name : String) (serial : Nat) (id : String) :
    CurrentOK (closeCompressionF (writeInfoF (newWriterF s.compression
      (freshFile name serial)) id s.warcinfoContent)) := by
  have hof : (writeInfoF (newWriterF s.compression (freshFile name serial)) id
      s.warcinfoContent).openFrame =
      some [{ header := s.warcinfoContent.set "WARC-Type" "warcinfo",
              contentLen := 0, isInfo := true, batchTime := "" }] := by
    unfold writeInfoF
    simp [newWriterF_openFrame, hc]
  have hfr : (closeCompressionF (writeInfoF (newWriterF s.compression
      (freshFile name serial)) id s.warcinfoContent)).frames =
      [[{ header := s.warcinfoContent.set "WARC-Type" "warcinfo",
          contentLen := 0, isInfo := true, batchTime := "" }]] := by
    rw [closeCompressionF_frames, writeInfoF_frames, newWriterF_frames, hof]
    simp [freshFile]
  have hrecs : (closeCompressionF (writeInfoF (newWriterF s.compression
      (freshFile name serial)) id s.warcinfoContent)).recs = [] := by
    rw [closeCompressionF_recs, writeInfoF_recs, newWriterF_recs]
    rfl
  refine ⟨?_, Or.inl (closeCompressionF_openFrame _), ?_, ?_⟩
  · intro fr hfrm
    rw [hfr] at hfrm
    simp at hfrm
    rw [hfrm]
    simp
  · rw [hfr, hrecs]
    simp
  · refine ⟨{ header := s.warcinfoContent.set "WARC-Type" "warcinfo",
              contentLen := 0, isInfo := true, batchTime := "" }, ?_, rfl⟩
    rw [hfr]
    rfl

theorem frameInv_init (s : RotatorSettings) (hc : compEnabled s.compression = true) :
    FrameInv (initState s) := by
  constructor
  · intro f hf
    unfold initState at hf
    simp at hf
  · have hcur : (initState s).current = newWriterF s.compression
        (closeCompressionF (writeInfoF (newWriterF s.compression
          (freshFile (generateWarcFileName s.filePrefix s.compression 1) 1)) (uuid 0)
          s.warcinfoContent)) := by
      unfold initState
      simp only [hc, if_true, eq_self_iff_true, ite_true]
    rw [hcur]
    have hbase := currentOK_fresh_info s hc
      (generateWarcFileName s.filePrefix s.compression 1) 1 (uuid 0)
    obtain ⟨hframes, _, hfilter, r0, hhead, hinfo⟩ := hbase
    refine ⟨?_, ?_, ?_, ⟨r0, ?_, hinfo⟩⟩
    · intro fr hfr
      rw [newWriterF_frames] at hfr
      exact hframes fr hfr
    · right
      rw [newWriterF_openFrame, if_pos hc]
    · rw [newWriterF_frames, newWriterF_recs]
      exact hfilter
    · rw [newWriterF_frames]
      exact hhead

theorem frameInv_writeOne (s : RotatorSettings) (t : String)
    (st : RWState) (r : Record) (hc : compEnabled s.compression = true)
    (h : FrameInv st) : FrameInv (writeOneRecord s t st r) := by
  obtain ⟨hs, hframes, hopen, hfilter, r0, hhead, hinfo⟩ := h
  constructor
  · intro f hf
    exact hs f hf
  · have hcur : (writeOneRecord s t st r).current =
        closeCompressionF (writeRecF (newWriterF s.compression st.current)
          ⟨(r.header.set "WARC-Date" t).set "WARC-Warcinfo-ID"
              ("<urn:uuid:" ++ st.currentWarcinfoRecordID ++ ">"),
            r.content.length, false, t⟩) := by
      unfold writeOneRecord
      simp only [hc, if_true, eq_self_iff_true, ite_true]
    rw [hcur]
    have hwof : (writeRecF (newWriterF s.compression st.current)
        ⟨(r.header.set "WARC-Date" t).set "WARC-Warcinfo-ID"
            ("<urn:uuid:" ++ st.currentWarcinfoRecordID ++ ">"),
          r.content.length, false, t⟩).openFrame =
        some [(⟨(r.header.set "WARC-Date" t).set "WARC-Warcinfo-ID"
            ("<urn:uuid:" ++ st.currentWarcinfoRecordID ++ ">"),
          r.content.length, false, t⟩ : WrittenRec)] := by
      rw [writeRecF_openFrame, newWriterF_openFrame, if_pos hc]
      rfl
    refine ⟨?_, Or.inl (closeCompressionF_openFrame _), ?_, ⟨r0, ?_, hinfo⟩⟩
    · intro fr hfr
      rw [closeCompressionF_frames, writeRecF_frames, newWriterF_frames, hwof] at hfr
      rcases List.mem_append.mp hfr with hin | hin
      · exact hframes fr hin
      · simp at hin
        rw [hin]
        simp
    · rw [closeCompressionF_frames, closeCompressionF_recs, writeRecF_frames,
        writeRecF_recs, newWriterF_frames, newWriterF_recs, hwof]
      simp only [Option.toList_some, List.flatten_append, List.flatten_cons,
        List.flatten_nil, List.filter_append, List.append_nil]
      rw [hfilter]
      simp
    · rw [closeCompressionF_frames, writeRecF_frames, newWriterF_frames]
      exact head?_append_left hhead

theorem frameInv_processBatch (s : RotatorSettings) (st : RWState)
    (b : RecordBatch) (hc : compEnabled s.compression = true)
    (h : FrameInv st) : FrameInv (processBatch s st b) := by
  unfold processBatch
  have hrot : FrameInv (if isFileSizeExceeded st.current s.warcSize
      then rotateStep s st else st) := by
    by_cases hex : isFileSizeExceeded st.current s.warcSize
    · rw [if_pos hex]
      obtain ⟨hs, hcur⟩ := h
      constructor
      · intro f hf
        rw [rotateStep_sealedFiles] at hf
        rcases List.mem_append.mp hf with hin | hin
        · exact hs f hin
        · rw [List.mem_singleton.mp hin]
          exact sealedOK_of_currentOK s st hc hcur
      · rw [rotateStep_current]
        have hrepr : rotNewFile s st = closeCompressionF (writeInfoF
            (newWriterF s.compression (freshFile (generateWarcFileName s.filePrefix
              s.compression (st.serial + 1)) (st.serial + 1))) (uuid st.nextId)
            s.warcinfoContent) := by
          unfold rotNewFile
          simp only [hc, if_true, eq_self_iff_true, ite_true]
        rw [hrepr]
        exact currentOK_fresh_info s hc _ _ _
    · rw [if_neg hex]
      exact h
  exact foldl_preserve FrameInv (writeOneRecord s b.captureTime)
    (fun a r ha => frameInv_writeOne s b.captureTime a r hc ha) b.records _ hrot

/-- C8: with GZIP or ZSTD compression enabled, every file of a run is a
sequence of independently closed compression frames each holding at most
one record, the first frame being exactly the info record, and every
non-info record lies inside its own closed frame — so any prefix of
records decompresses without processing the rest of the file. -/
theorem c8_per_record_frames (s : RotatorSettings) (batches : List RecordBatch)
    (hc : compEnabled s.compression = true) :
    ∀ f ∈ (recordWriter s batches).sealedFiles,
      (∀ fr ∈ f.frames, fr.length ≤ 1) ∧
      f.openFrame = none ∧
      f.frames.flatten.filter (fun r => !r.isInfo) = f.recs ∧
      (∃ r, f.frames.head? = some [r] ∧ r.isInfo = true) := by
  have hrun : FrameInv (batches.foldl (processBatch s) (initState s)) :=
    foldl_preserve FrameInv (processBatch s)
      (fun a b ha => frameInv_processBatch s a b hc ha) batches _ (frameInv_init s hc)
  obtain ⟨hs, hcur⟩ := hrun
  intro f hf
  unfold recordWriter at hf
  rw [shutdownRW_sealedFiles] at hf
  rcases List.mem_append.mp hf with hin | hin
  · exact hs f hin
  · rw [List.mem_singleton.mp hin]
    exact sealedOK_final s _ hc hcur

/-- Witness for C8 at a concrete GZIP run of one batch: the sealed file
consists of two singleton frames — the info record's own frame followed by
the exchange record's own frame — with no stream left open. -/
theorem c8_per_record_frames_witness :
    (∀ fr ∈ (⟨"T-TS-1-HOST.warc.gz", 1, "uuid-0",
        [⟨[("WARC-Date", "t1"), ("WARC-Warcinfo-ID", "<urn:uuid:uuid-0>")], 2, false, "t1"⟩],
        [[⟨[("a", "b"), ("WARC-Type", "warcinfo")], 0, true, ""⟩],
         [⟨[("WARC-Date", "t1"), ("WARC-Warcinfo-ID", "<urn:uuid:uuid-0>")], 2, false, "t1"⟩]],
        none, true, true⟩ : WFile).frames, fr.length ≤ 1) ∧
    (⟨"T-TS-1-HOST.warc.gz", 1, "uuid-0",
        [⟨[("WARC-Date", "t1"), ("WARC-Warcinfo-ID", "<urn:uuid:uuid-0>")], 2, false, "t1"⟩],
        [[⟨[("a", "b"), ("WARC-Type", "warcinfo")], 0, true, ""⟩],
         [⟨[("WARC-Date", "t1"), ("WARC-Warcinfo-ID", "<urn:uuid:uuid-0>")], 2, false, "t1"⟩]],
        none, true, true⟩ : WFile).openFrame = none := by
  have hsf : (recordWriter ⟨[("a", "b")], "T", "GZIP", 1, ""⟩
      [⟨"t1", [⟨[], [0, 0]⟩]⟩]).sealedFiles =
      [⟨"T-TS-1-HOST.warc.gz", 1, "uuid-0",
        [⟨[("WARC-Date", "t1"), ("WARC-Warcinfo-ID", "<urn:uuid:uuid-0>")], 2, false, "t1"⟩],
        [[⟨[("a", "b"), ("WARC-Type", "warcinfo")], 0, true, ""⟩],
         [⟨[("WARC-Date", "t1"), ("WARC-Warcinfo-ID", "<urn:uuid:uuid-0>")], 2, false, "t1"⟩]],
        none, true, true⟩] := by decide
  have h := c8_per_record_frames ⟨[("a", "b")], "T", "GZIP", 1, ""⟩
    [⟨"t1", [⟨[], [0, 0]⟩]⟩] (by decide)
    ⟨"T-TS-1-HOST.warc.gz", 1, "uuid-0",
        [⟨[("WARC-Date", "t1"), ("WARC-Warcinfo-ID", "<urn:uuid:uuid-0>")], 2, false, "t1"⟩],
        [[⟨[("a", "b"), ("WARC-Type", "warcinfo")], 0, true, ""⟩],
         [⟨[("WARC-Date", "t1"), ("WARC-Warcinfo-ID", "<urn:uuid:uuid-0>")], 2, false, "t1"⟩]],
        none, true, true⟩
    (by rw [hsf]; exact List.mem_singleton_self _)
  exact ⟨h.1, h.2.1⟩

/- ## Rotation publishes before flushing (C3) -/

theorem traceA_of_noRen (dir : String) (l : List Ev) (h : noRen l) : TraceA dir l := by
  intro i o n hi _
  exact absurd rfl (h _ (List.getElem?_mem hi) o n)

theorem traceB_of_noRen (l : List Ev) (h : noRen l) : TraceB l := by
  intro o n hcon
  exact absurd rfl (h _ (List.mem_of_getLast?_eq_some hcon) o n)

theorem noRen_append {l l' : List Ev} (h : noRen l) (h' : noRen l') :
    noRen (l ++ l') := by
  intro e he
  rcases List.mem_append.mp he with hin | hin
  · exact h e hin
  · exact h' e hin

theorem traceA_append (dir : String) (t c : List Ev) (ht : TraceA dir t)
    (hlast : TraceB t) (hc : TraceA dir c) : TraceA dir (t ++ c) := by
  intro i o n hi hlt
  rw [List.getElem?_append] at hi
  by_cases h1 : i < t.length
  · rw [if_pos h1] at hi
    by_cases h2 : i + 1 < t.length
    · obtain ⟨f, hf1, hf2⟩ := ht i o n hi h2
      refine ⟨f, hf1, ?_⟩
      rw [List.getElem?_append, if_pos h2]
      exact hf2
    · exfalso
      have hlen : t.length - 1 = i := by omega
      have : t.getLast? = some (Ev.rename o n) := by
        rw [List.getLast?_eq_getElem? t, hlen]
        exact hi
      exact hlast o n this
  · rw [if_neg h1] at hi
    have hlen : t.length ≤ i := le_of_not_lt h1
    have h2 : i - t.length + 1 < c.length := by
      rw [List.length_append] at hlt
      omega
    obtain ⟨f, hf1, hf2⟩ := hc (i - t.length) o n hi h2
    refine ⟨f, hf1, ?_⟩
    rw [List.getElem?_append_right (by omega : t.length ≤ i + 1),
        show i + 1 - t.length = i - t.length + 1 from by omega]
    exact hf2

theorem traceB_append_of_ne_nil (t c : List Ev) (hne : c ≠ []) (hc : TraceB c) :
    TraceB (t ++ c) := by
  intro o n
  rw [List.getLast?_append_of_ne_nil t hne]
  exact hc o n

theorem traceB_append_nil_case (t c : List Ev) (ht : TraceB t) (hc : noRen c) :
    TraceB (t ++ c) := by
  by_cases hcc : c = []
  · subst hcc
    intro o n
    simpa using ht o n
  · exact traceB_append_of_ne_nil t c hcc (traceB_of_noRen c hc)

/-- A trace beginning with a rename immediately followed by the flush of
the renamed file, and containing no other rename, satisfies `TraceA`. -/
theorem traceA_rename_head (dir f p : String) (rest : List Ev)
    (hnr : noRen rest) :
    TraceA dir (Ev.rename (dir ++ f) p :: Ev.flushFile f :: rest) := by
  intro i o n hi hlt
  match i with
  | 0 =>
    rw [List.getElem?_cons_zero, Option.some_inj] at hi
    injection hi with h1 h2
    subst h1
    exact ⟨f, rfl, by simp⟩
  | 1 =>
    rw [List.getElem?_cons_succ, List.getElem?_cons_zero] at hi
    cases hi
  | i' + 2 =>
    exfalso
    rw [List.getElem?_cons_succ, List.getElem?_cons_succ] at hi
    exact absurd rfl (hnr _ (List.getElem?_mem hi) o n)

theorem rotateStep_events (s : RotatorSettings) (st : RWState) :
    (rotateStep s st).events = st.events ++
      (Ev.rename (s.outputDirectory ++ st.currentFileName)
          (trimSuffix (s.outputDirectory ++ st.currentFileName) ".open") ::
        Ev.flushFile st.currentFileName ::
        ((if compEnabled s.compression then [Ev.closeCompression st.currentFileName]
          else []) ++
         ([Ev.closeFile st.currentFileName,
           Ev.create (s.outputDirectory ++
             generateWarcFileName s.filePrefix s.compression (st.serial + 1)),
           Ev.newWriter (generateWarcFileName s.filePrefix s.compression (st.serial + 1)),
           Ev.writeInfo (generateWarcFileName s.filePrefix s.compression (st.serial + 1))
             (uuid st.nextId)] ++
          (if compEnabled s.compression then
            [Ev.closeCompression
              (generateWarcFileName s.filePrefix s.compression (st.serial + 1))]
          else [])))) := by
  unfold rotateStep
  simp only [List.cons_append, List.append_assoc, List.nil_append]

theorem noRen_rotTail (s : RotatorSettings) (st : RWState) :
    noRen ((if compEnabled s.compression then [Ev.closeCompression st.currentFileName]
        else []) ++
      ([Ev.closeFile st.currentFileName,
        Ev.create (s.outputDirectory ++
          generateWarcFileName s.filePrefix s.compression (st.serial + 1)),
        Ev.newWriter (generateWarcFileName s.filePrefix s.compression (st.serial + 1)),
        Ev.writeInfo (generateWarcFileName s.filePrefix s.compression (st.serial + 1))
          (uuid st.nextId)] ++
       (if compEnabled s.compression then
         [Ev.closeCompression
           (generateWarcFileName s.filePrefix s.compression (st.serial + 1))]
       else []))) := by
  intro e he o n
  by_cases hcp : compEnabled s.compression <;>
    simp [hcp] at he <;>
    rcases he with rfl | rfl | rfl | rfl | rfl | rfl <;> simp

theorem writeOneRecord_events (s : RotatorSettings) (t : String)
    (st : RWState) (r : Record) :
    (writeOneRecord s t st r).events = st.events ++
      ([Ev.newWriter st.currentFileName, Ev.writeRecord st.currentFileName] ++
       (if compEnabled s.compression then [Ev.closeCompression st.currentFileName]
        else [])) := by
  unfold writeOneRecord
  simp only [List.cons_append, List.append_assoc, List.nil_append]

theorem writeFold_events (s : RotatorSettings) (t : String) :
    ∀ (recs : List Record) (st : RWState),
      ∃ w, (recs.foldl (writeOneRecord s t) st).events = st.events ++ w ∧ noRen w := by
  intro recs
  induction recs with
  | nil =>
    intro st
    exact ⟨[], by simp, by intro e he; cases he⟩
  | cons r rest ih =>
    intro st
    obtain ⟨w, hw, hnw⟩ := ih (writeOneRecord s t st r)
    refine ⟨([Ev.newWriter st.currentFileName, Ev.writeRecord st.currentFileName] ++
      (if compEnabled s.compression then [Ev.closeCompression st.currentFileName]
       else [])) ++ w, ?_, ?_⟩
    · rw [List.foldl_cons, hw, writeOneRecord_events, List.append_assoc]
    · refine noRen_append ?_ hnw
      intro e he o n
      by_cases hcp : compEnabled s.compression <;>
        simp [hcp] at he <;>
        rcases he with rfl | rfl | rfl <;> simp

theorem trace_processBatch (s : RotatorSettings) (b : RecordBatch) (st : RWState)
    (h : TraceA s.outputDirectory st.events ∧ TraceB st.events) :
    TraceA s.outputDirectory (processBatch s st b).events ∧
      TraceB (processBatch s st b).events := by
  have h1 : TraceA s.outputDirectory
      ((if isFileSizeExceeded st.current s.warcSize then rotateStep s st
        else st)).events ∧
      TraceB ((if isFileSizeExceeded st.current s.warcSize then rotateStep s st
        else st)).events := by
    by_cases hex : isFileSizeExceeded st.current s.warcSize
    · rw [if_pos hex, rotateStep_events]
      constructor
      · refine traceA_append _ _ _ h.1 h.2 ?_
        exact traceA_rename_head s.outputDirectory st.currentFileName
          (trimSuffix (s.outputDirectory ++ st.currentFileName) ".open") _
          (noRen_rotTail s st)
      · refine traceB_append_of_ne_nil _ _ (by simp) ?_
        intro o n hcon
        rw [List.getLast?_cons_cons] at hcon
        have hmem := List.mem_of_getLast?_eq_some hcon
        rcases List.mem_cons.mp hmem with heq | hmem2
        · cases heq
        · exact absurd rfl (noRen_rotTail s st _ hmem2 o n)
    · rw [if_neg hex]
      exact h
  obtain ⟨w, hw, hnw⟩ := writeFold_events s b.captureTime b.records
    (if isFileSizeExceeded st.current s.warcSize then rotateStep s st else st)
  have hpe : (processBatch s st b).events =
      (b.records.foldl (writeOneRecord s b.captureTime)
        (if isFileSizeExceeded st.current s.warcSize then rotateStep s st
          else st)).events ++
      [Ev.flushFile (b.records.foldl (writeOneRecord s b.captureTime)
        (if isFileSizeExceeded st.current s.warcSize then rotateStep s st
          else st)).currentFileName] := rfl
  have hev : (processBatch s st b).events =
      ((if isFileSizeExceeded st.current s.warcSize then rotateStep s st
        else st)).events ++
      (w ++ [Ev.flushFile (b.records.foldl (writeOneRecord s b.captureTime)
        (if isFileSizeExceeded st.current s.warcSize then rotateStep s st
          else st)).currentFileName]) := by
    rw [hpe, hw, List.append_assoc]
  rw [hev]
  constructor
  · refine traceA_append _ _ _ h1.1 h1.2 ?_
    refine traceA_of_noRen _ _ (noRen_append hnw ?_)
    intro e he o n
    simp at he
    rw [he]
    simp
  · refine traceB_append_of_ne_nil _ _ (by simp) ?_
    refine traceB_of_noRen _ (noRen_append hnw ?_)
    intro e he o n
    simp at he
    rw [he]
    simp

theorem trace_init (s : RotatorSettings) :
    TraceA s.outputDirectory (initState s).events ∧ TraceB (initState s).events := by
  have hnr : noRen (initState s).events := by
    intro e he o n
    unfold initState at he
    by_cases hcp : compEnabled s.compression <;>
      simp [hcp] at he <;>
      rcases he with rfl | rfl | rfl | rfl | rfl <;> simp
  exact ⟨traceA_of_noRen _ _ hnr, traceB_of_noRen _ hnr⟩

/-- The shutdown action block: only its final action is a rename, so it
satisfies `TraceA` for bound reasons. -/
theorem traceA_shutdown_chunk (s : RotatorSettings) (cur o p : String) :
    TraceA s.outputDirectory
      ([Ev.flushFile cur] ++
       (if compEnabled s.compression then [Ev.closeCompression cur] else []) ++
       [Ev.closeFile cur, Ev.rename o p]) := by
  by_cases hcp : compEnabled s.compression <;>
    simp only [hcp, if_true, if_false, ite_true, ite_false, List.cons_append,
      List.nil_append, List.append_nil] <;>
    intro i oo nn hi hlt
  · match i with
    | 0 => cases hi
    | 1 => cases hi
    | 2 => cases hi
    | 3 => simp at hlt
    | i' + 4 => cases hi
  · match i with
    | 0 => cases hi
    | 1 => cases hi
    | 2 => simp at hlt
    | i' + 3 => cases hi

/-- C3 (amended): in every run of the rotator, a rename that is not the
final action — i.e. a size-triggered rotation's publish — happens FIRST
and is immediately followed by the flush of the renamed (still open-named)
file; only the shutdown seal renames last, after its flush and closes. -/
theorem c3_rotation_rename_precedes_flush (s : RotatorSettings)
    (batches : List RecordBatch) :
    TraceA s.outputDirectory (recordWriter s batches).events ∧
    (∃ o p, (recordWriter s batches).events.getLast? = some (Ev.rename o p)) := by
  have hrun := foldl_preserve
    (fun st => TraceA s.outputDirectory st.events ∧ TraceB st.events)
    (processBatch s) (fun a b ha => trace_processBatch s b a ha)
    batches _ (trace_init s)
  have hev : (recordWriter s batches).events =
      (batches.foldl (processBatch s) (initState s)).events ++
      ([Ev.flushFile (batches.foldl (processBatch s) (initState s)).currentFileName] ++
       (if compEnabled s.compression then
         [Ev.closeCompression
           (batches.foldl (processBatch s) (initState s)).currentFileName]
        else []) ++
       [Ev.closeFile (batches.foldl (processBatch s) (initState s)).currentFileName,
        Ev.rename (s.outputDirectory ++
          (batches.foldl (processBatch s) (initState s)).currentFileName)
          (trimSuffix (s.outputDirectory ++
            (batches.foldl (processBatch s) (initState s)).currentFileName) ".open")]) := by
    unfold recordWriter shutdownRW
    simp only [List.cons_append, List.append_assoc, List.nil_append]
  rw [hev]
  constructor
  · exact traceA_append _ _ _ hrun.1 hrun.2 (traceA_shutdown_chunk s _ _ _)
  · refine ⟨s.outputDirectory ++
        (batches.foldl (processBatch s) (initState s)).currentFileName,
      trimSuffix (s.outputDirectory ++
        (batches.foldl (processBatch s) (initState s)).currentFileName) ".open", ?_⟩
    rw [List.getLast?_append_of_ne_nil _
      (by by_cases hcp : compEnabled s.compression <;> simp [hcp])]
    by_cases hcp : compEnabled s.compression <;> simp [hcp]

/-- C3 counterexample: in a concrete run with one size-triggered rotation
(no compression), the rotation block is rename (index 6), then flush
(index 7), then close (index 8): the file is published by the rename while
the flush of its writer only happens afterwards — the order the claim
states (flush, close compression, then rename) does not hold.  The full
trace is listed to fix the indices. -/
theorem c3_rename_before_flush_counterexample :
    ((recordWriter ⟨[("software", "test")], "T", "", 1, ""⟩
      [⟨"t1", [⟨[], [0, 0]⟩]⟩, ⟨"t2", [⟨[], [0, 0]⟩]⟩]).events =
      [Ev.create "T-TS-1-HOST.warc.open", Ev.newWriter "T-TS-1-HOST.warc.open",
       Ev.writeInfo "T-TS-1-HOST.warc.open" "uuid-0",
       Ev.newWriter "T-TS-1-HOST.warc.open", Ev.writeRecord "T-TS-1-HOST.warc.open",
       Ev.flushFile "T-TS-1-HOST.warc.open",
       Ev.rename "T-TS-1-HOST.warc.open" "T-TS-1-HOST.warc",
       Ev.flushFile "T-TS-1-HOST.warc.open", Ev.closeFile "T-TS-1-HOST.warc.open",
       Ev.create "T-TS-2-HOST.warc.open", Ev.newWriter "T-TS-2-HOST.warc.open",
       Ev.writeInfo "T-TS-2-HOST.warc.open" "uuid-1",
       Ev.newWriter "T-TS-2-HOST.warc.open", Ev.writeRecord "T-TS-2-HOST.warc.open",
       Ev.flushFile "T-TS-2-HOST.warc.open", Ev.flushFile "T-TS-2-HOST.warc.open",
       Ev.closeFile "T-TS-2-HOST.warc.open",
       Ev.rename "T-TS-2-HOST.warc.open" "T-TS-2-HOST.warc"]) ∧
    ((recordWriter ⟨[("software", "test")], "T", "", 1, ""⟩
      [⟨"t1", [⟨[], [0, 0]⟩]⟩, ⟨"t2", [⟨[], [0, 0]⟩]⟩]).events[6]? =
      some (Ev.rename "T-TS-1-HOST.warc.open" "T-TS-1-HOST.warc")) ∧
    ((recordWriter ⟨[("software", "test")], "T", "", 1, ""⟩
      [⟨"t1", [⟨[], [0, 0]⟩]⟩, ⟨"t2", [⟨[], [0, 0]⟩]⟩]).events[7]? =
      some (Ev.flushFile "T-TS-1-HOST.warc.open")) ∧
    ((recordWriter ⟨[("software", "test")], "T", "", 1, ""⟩
      [⟨"t1", [⟨[], [0, 0]⟩]⟩, ⟨"t2", [⟨[], [0, 0]⟩]⟩]).events[8]? =
      some (Ev.closeFile "T-TS-1-HOST.warc.open")) := by
  refine ⟨by decide, by decide, by decide, by decide⟩

/-- Witness for C3 (amended) at the rotation of the concrete run: the
rename at index 6 is non-final and is followed at index 7 by the flush of
the renamed file. -/
theorem c3_rotation_rename_precedes_flush_witness :
    ∃ f, "T-TS-1-HOST.warc.open" = "" ++ f ∧
      (recordWriter ⟨[("software", "test")], "T", "", 1, ""⟩
        [⟨"t1", [⟨[], [0, 0]⟩]⟩, ⟨"t2", [⟨[], [0, 0]⟩]⟩]).events[7]? =
        some (Ev.flushFile f) :=
  (c3_rotation_rename_precedes_flush ⟨[("software", "test")], "T", "", 1, ""⟩
    [⟨"t1", [⟨[], [0, 0]⟩]⟩, ⟨"t2", [⟨[], [0, 0]⟩]⟩]).1 6
    "T-TS-1-HOST.warc.open" "T-TS-1-HOST.warc" (by decide) (by decide)

end Warc
